import Mathlib

/-!
Verification of the gotetra density-deposition core against its
natural-language specification.

Conventions of the embedding:
* Go `float32`/`float64` values are modelled as exact rationals (`ℚ`); all
  literal inputs appearing in the specification's scenarios are dyadic and
  are represented exactly by both binary floating point and `ℚ`.
* Go `int`/`int64` are modelled as `ℤ`.
* Go slices indexed by a linear cell index are modelled as total maps
  `ℤ → ℚ`; every write in the source is guarded so that only indices of
  in-window cells are touched, which the frame theorems below make precise.
* Square roots (`math.Sqrt`) appear only inside Plücker-vector
  normalization, where no claim depends on their numeric value; they are
  abstracted by an arbitrary function `sq : ℚ → ℚ` that both sides of every
  equation share.
* Code of the repository that is not part of the provided sources (the
  render-side `geom.Grid`, `geom.Tetra`, `geom.TetraIdxs`,
  `catalog.ParticleManager`, `rand.Generator`) is modelled from the
  specification; each such definition carries a doc comment starting with
  `Modelled from the spec:`.
-/

/-- A three dimensional vector (`geom.Vec`, a `[3]float32` in the source). -/
abbrev Vec := Fin 3 → ℚ

namespace geom

/-- A tetrahedron (`geom.Tetra` of `los/geom/primitives.go`): four vertices. -/
abbrev Tetra := Fin 4 → Vec

/-- The face-vertex table of `los/geom/primitives.go`:
face ordering is F0(V3,V2,V1), F1(V2,V3,V0), F2(V1,V0,V3), F3(V0,V1,V2). -/
def tetraIdxs : Fin 4 → Fin 3 → Fin 4 :=
  ![![3, 2, 1], ![2, 3, 0], ![1, 0, 3], ![0, 1, 2]]

/-- `Tetra.VertexIdx`: index into the tetrahedron for a face and vertex. -/
def Tetra.VertexIdx (face : Fin 4) (vertex : Fin 3) : Fin 4 :=
  tetraIdxs face vertex

/-- Swap of the first two vertices, as performed by `Tetra.Orient`. -/
def swap01 (t : Tetra) : Tetra := ![t 1, t 0, t 2, t 3]

/-- The quantity `dot` computed by `Tetra.Orient`: with `v = t1 - t0`,
`w = t2 - t0` and `n = -(v × w)` componentwise as in the source, this is
`n · (t3 - t0)`. -/
def Tetra.orientDot (t : Tetra) : ℚ :=
  let v : Vec := fun i => t 1 i - t 0 i
  let w : Vec := fun i => t 2 i - t 0 i
  (-(v 1) * w 2 + v 2 * w 1) * (t 3 0 - t 0 0) +
    (-(v 2) * w 0 + v 0 * w 2) * (t 3 1 - t 0 1) +
    (-(v 0) * w 1 + v 1 * w 0) * (t 3 2 - t 0 2)

/-- `Tetra.Orient` from the source: computes `n = -(v × w)` for
`v = t1 - t0`, `w = t2 - t0`, takes `dot = n · (t3 - t0)` and swaps the
first two vertices when `(dot < 0 ∧ dir = -1) ∨ (dot > 0 ∧ dir = +1)`. -/
def Tetra.Orient (t : Tetra) (dir : ℤ) : Tetra :=
  if (t.orientDot < 0 ∧ dir = -1) ∨ (0 < t.orientDot ∧ dir = 1) then
    swap01 t
  else t

/-- The scalar triple product of the edge vectors
`(v1 - v0, v2 - v0, v3 - v0)` of a tetrahedron; the signed volume is one
sixth of this quantity. -/
def tripleProduct (t : Tetra) : ℚ :=
  let v : Vec := fun i => t 1 i - t 0 i
  let w : Vec := fun i => t 2 i - t 0 i
  let u : Vec := fun i => t 3 i - t 0 i
  (v 1 * w 2 - v 2 * w 1) * u 0 + (v 2 * w 0 - v 0 * w 2) * u 1 +
    (v 0 * w 1 - v 1 * w 0) * u 2

/-- A Plücker vector (`geom.PluckerVec`): the pair `(U, V)`. -/
structure PluckerVec where
  U : Vec
  V : Vec
deriving DecidableEq

/-- `PluckerVec.InitFromSegment`: the Plücker vector of the ray from `P1`
to `P2`.  The source normalizes `U` by `math.Sqrt` of its squared length;
the square root is abstracted by the function `sq`. -/
def PluckerVec.InitFromSegment (sq : ℚ → ℚ) (P1 P2 : Vec) : PluckerVec :=
  let U0 : Vec := fun i => P2 i - P1 i
  let s : ℚ := sq (U0 0 * U0 0 + U0 1 * U0 1 + U0 2 * U0 2)
  let U : Vec := fun i => U0 i / s
  { U := U
    V := ![-(P1 1) * U 2 + P1 2 * U 1,
           -(P1 2) * U 0 + P1 0 * U 2,
           -(P1 0) * U 1 + P1 1 * U 0] }

/-- A Plücker tetrahedron (`geom.PluckerTetra`): six Plücker edge vectors
in the raw order {0-1, 0-2, 0-3, 1-2, 1-3, 2-3}. -/
abbrev PluckerTetra := Fin 6 → PluckerVec

/-- The face-to-edge index table `pluckerTetraEdges` of the source. -/
def pluckerTetraEdges : Fin 4 → Fin 3 → Fin 6 :=
  ![![5, 3, 4], ![5, 2, 1], ![0, 2, 4], ![0, 3, 1]]

/-- The face-to-edge flip table `pluckerTetraFlips` of the source. -/
def pluckerTetraFlips : Fin 4 → Fin 3 → Bool :=
  ![![true, true, false], ![false, true, false],
    ![true, false, true], ![false, false, true]]

/-- `PluckerTetra.Init`: builds the six raw edges from a tetrahedron. -/
def PluckerTetra.Init (sq : ℚ → ℚ) (t : Tetra) : PluckerTetra :=
  ![PluckerVec.InitFromSegment sq (t 0) (t 1),
    PluckerVec.InitFromSegment sq (t 0) (t 2),
    PluckerVec.InitFromSegment sq (t 0) (t 3),
    PluckerVec.InitFromSegment sq (t 1) (t 2),
    PluckerVec.InitFromSegment sq (t 1) (t 3),
    PluckerVec.InitFromSegment sq (t 2) (t 3)]

/-- `PluckerTetra.EdgeIdx`: the raw edge index and flip flag for a face
and an edge position within that face. -/
def PluckerTetra.EdgeIdx (face : Fin 4) (edge : Fin 3) : Fin 6 × Bool :=
  (pluckerTetraEdges face edge, pluckerTetraFlips face edge)

/-- The endpoints of the six raw Plücker edges, in the raw order
{0-1, 0-2, 0-3, 1-2, 1-3, 2-3} documented in the source. -/
def rawEdge : Fin 6 → Fin 4 × Fin 4 :=
  ![(0, 1), (0, 2), (0, 3), (1, 2), (1, 3), (2, 3)]

end geom

/-! ## Vector helpers shared by the modelled render-side geometry -/

/-- Euclidean dot product of two vectors. -/
def dot3 (a b : Vec) : ℚ := a 0 * b 0 + a 1 * b 1 + a 2 * b 2

/-- Cross product of two vectors. -/
def cross3 (a b : Vec) : Vec :=
  ![a 1 * b 2 - a 2 * b 1, a 2 * b 0 - a 0 * b 2, a 0 * b 1 - a 1 * b 0]

/-- Componentwise difference of two vectors. -/
def vsub (a b : Vec) : Vec := fun i => a i - b i

namespace rgeom

/-- Modelled from the spec: the render-side `geom.Grid` descriptor
(§3, §4.1), absent from the provided sources.  `(origin, width)`;
cells are addressed by integer triples `(i,j,k)` with
`i ∈ [origin_x, origin_x + width)` and the linear index is
`i + j·W + k·W²` after translating by the origin. -/
structure Grid where
  Origin : Fin 3 → ℤ
  Width : ℤ
deriving DecidableEq

/-- Modelled from the spec: `geom.CellBounds`, an axis-aligned integer
box in cell coordinates (§4.2, glossary). -/
structure CellBounds where
  Min : Fin 3 → ℤ
  Max : Fin 3 → ℤ
deriving DecidableEq

/-- Modelled from the spec (§4.1): `idx_check(i,j,k) → (index, in_bounds)`
translates by the origin and returns the linear index plus a flag. -/
def Grid.IdxCheck (g : Grid) (i j k : ℤ) : ℤ × Bool :=
  let di := i - g.Origin 0
  let dj := j - g.Origin 1
  let dk := k - g.Origin 2
  (di + dj * g.Width + dk * g.Width * g.Width,
   decide (0 ≤ di ∧ di < g.Width ∧ 0 ≤ dj ∧ dj < g.Width ∧
     0 ≤ dk ∧ dk < g.Width))

/-- Modelled from the spec (§3, §4.1): the unchecked linear index of a
cell, translated by the origin. -/
def Grid.Idx (g : Grid) (i j k : ℤ) : ℤ :=
  (i - g.Origin 0) + (j - g.Origin 1) * g.Width +
    (k - g.Origin 2) * g.Width * g.Width

/-- The in-window predicate of a grid: exactly the cells accepted by
`IdxCheck`. -/
def Grid.InWindow (g : Grid) (i j k : ℤ) : Prop :=
  0 ≤ i - g.Origin 0 ∧ i - g.Origin 0 < g.Width ∧
  0 ≤ j - g.Origin 1 ∧ j - g.Origin 1 < g.Width ∧
  0 ≤ k - g.Origin 2 ∧ k - g.Origin 2 < g.Width

instance (g : Grid) (i j k : ℤ) : Decidable (g.InWindow i j k) := by
  unfold Grid.InWindow; infer_instance

/-- Modelled from the spec (§4.1): `wrap(i,j,k)` reduces into
`[0, width)` per axis using Euclidean modulo (Lean's `Int.emod`). -/
def Grid.Wrap (g : Grid) (i j k : ℤ) : ℤ × ℤ × ℤ :=
  (i % g.Width, j % g.Width, k % g.Width)

/-- One axis of the intersection test: some cell of the bounds, wrapped
through the bounding grid, lands inside the window `[o, o + w)`. -/
def axisHit (lo hi o w bgW : ℤ) : Prop :=
  ∃ c ∈ Finset.Icc lo hi, o ≤ c % bgW ∧ c % bgW < o + w

instance (lo hi o w bgW : ℤ) : Decidable (axisHit lo hi o w bgW) := by
  unfold axisHit; infer_instance

/-- Modelled from the spec (§4.1): `intersect(cellBounds, BG)` returns
true iff the axis-aligned, possibly-wrapped cell bounds overlap the
grid's window; a wrapping box is tested as the union of its unwrapped
pieces, which the per-axis existential over the enumerated cell range
captures. -/
def Grid.Intersect (g : Grid) (cb : CellBounds) (bg : Grid) : Bool :=
  decide (axisHit (cb.Min 0) (cb.Max 0) (g.Origin 0) g.Width bg.Width) &&
  decide (axisHit (cb.Min 1) (cb.Max 1) (g.Origin 1) g.Width bg.Width) &&
  decide (axisHit (cb.Min 2) (cb.Max 2) (g.Origin 2) g.Width bg.Width)

/-- The render-side `geom.Tetra`: four vertices. -/
abbrev Tetra := Fin 4 → Vec

/-- Modelled from the spec (§4.2): shift one vertex axis by
`±box_width` towards the nearest periodic image of the anchor `p0`
when the axis-wise distance exceeds `box_width / 2`. -/
def wrapVertex (bw : ℚ) (p0 v : Vec) : Vec := fun i =>
  if bw / 2 < v i - p0 i then v i - bw
  else if bw / 2 < p0 i - v i then v i + bw
  else v i

/-- Modelled from the spec (§4.2): `Tetra.Init` copies the four
positions, re-centering each vertex to the nearest periodic image of
`p0`. -/
def Tetra.Init (p0 p1 p2 p3 : Vec) (bw : ℚ) : Tetra :=
  ![p0, wrapVertex bw p0 p1, wrapVertex bw p0 p2, wrapVertex bw p0 p3]

/-- Modelled from the spec (§4.2): one sixth of the absolute scalar
triple product of the edges from `v0`. -/
def Tetra.Volume (t : Tetra) : ℚ :=
  |dot3 (cross3 (vsub (t 1) (t 0)) (vsub (t 2) (t 0))) (vsub (t 3) (t 0))| / 6

/-- Modelled from the spec (§4.2): `cell_bounds_at` takes the floor and
ceiling of the tetra's extent divided by the cell width on each axis. -/
def Tetra.CellBoundsAt (t : Tetra) (cw : ℚ) : CellBounds :=
  { Min := fun i => ⌊min (min (t 0 i) (t 1 i)) (min (t 2 i) (t 3 i)) / cw⌋
    Max := fun i => ⌈max (max (t 0 i) (t 1 i)) (max (t 2 i) (t 3 i)) / cw⌉ }

/-- Modelled from the spec (§4.2): `contains(&v)` holds iff `v` lies
inside the tetrahedron, decided by the sign agreement of the four
half-space tests against the faces; points on a face are inside. -/
def Tetra.Contains (t : Tetra) (v : Vec) : Bool :=
  decide (∀ f : Fin 4,
    let a := t (geom.tetraIdxs f 0)
    let n := cross3 (vsub (t (geom.tetraIdxs f 1)) a)
      (vsub (t (geom.tetraIdxs f 2)) a)
    0 ≤ dot3 n (vsub v a) * dot3 n (vsub (t f) a))

/-- Modelled from the spec (§4.2): the six squared pairwise edge
lengths.  The source compares true edge lengths (via `math.Sqrt`); the
model works with squared lengths, an equivalent comparison for
nonnegative thresholds. -/
def Tetra.legSqList (t : Tetra) : List ℚ :=
  [dot3 (vsub (t 1) (t 0)) (vsub (t 1) (t 0)),
   dot3 (vsub (t 2) (t 0)) (vsub (t 2) (t 0)),
   dot3 (vsub (t 3) (t 0)) (vsub (t 3) (t 0)),
   dot3 (vsub (t 2) (t 1)) (vsub (t 2) (t 1)),
   dot3 (vsub (t 3) (t 1)) (vsub (t 3) (t 1)),
   dot3 (vsub (t 3) (t 2)) (vsub (t 3) (t 2))]

/-- Modelled from the spec (§4.2): `min_max_leg` returns the minimum and
maximum pairwise edge length; here in squared form. -/
def Tetra.MinMaxLegSq (t : Tetra) : ℚ × ℚ :=
  (t.legSqList.foldl min (t.legSqList.headI),
   t.legSqList.foldl max (t.legSqList.headI))

/-- Modelled from the spec (§4.2): the canonical two-step folded-cube
transform mapping a triple `(s,t,u) ∈ [0,1]³` to barycentric weights
`(1-s-t-u, s, t, u)` and the corresponding point of the tetrahedron. -/
def Tetra.baryPoint (t : Tetra) (s0 t0 u0 : ℚ) : Vec :=
  let p1 : ℚ × ℚ × ℚ :=
    if 1 < s0 + t0 then (1 - s0, 1 - t0, u0) else (s0, t0, u0)
  let s := p1.1
  let tt := p1.2.1
  let u := p1.2.2
  let p2 : ℚ × ℚ × ℚ :=
    if 1 < tt + u then (s, 1 - u, 1 - s - tt)
    else if 1 < s + tt + u then (1 - tt - u, tt, s + tt + u - 1)
    else (s, tt, u)
  fun i => (1 - p2.1 - p2.2.1 - p2.2.2) * t 0 i + p2.1 * t 1 i +
    p2.2.1 * t 2 i + p2.2.2 * t 3 i

end rgeom

namespace rand

/-- Modelled from the spec (§5): the random generator owned by a
Monte-Carlo interpolator, as a stream of draws in `[0,1]` plus a cursor
recording how many draws were consumed. -/
structure Generator where
  f : ℕ → ℚ
  pos : ℕ

end rand

namespace rgeom

/-- Modelled from the spec (§4.2): `random_sample` fills the output with
`n` points of the tetrahedron obtained by the folded-cube transform from
three consecutive generator draws per point, consuming `3·n` draws. -/
def Tetra.RandomSample (t : Tetra) (gen : rand.Generator) (n : ℕ) :
    List Vec × rand.Generator :=
  ((List.range n).map fun m =>
      t.baryPoint (gen.f (gen.pos + 3 * m)) (gen.f (gen.pos + 3 * m + 1))
        (gen.f (gen.pos + 3 * m + 2)),
   { gen with pos := gen.pos + 3 * n })

/-- Modelled from the spec (§4.2): `distribute` applies the same
barycentric formula deterministically to pre-drawn coordinates. -/
def Tetra.Distribute (t : Tetra) (xs ys zs : List ℚ) : List Vec :=
  (List.range xs.length).map fun m =>
    t.baryPoint (xs.getD m 0) (ys.getD m 0) (zs.getD m 0)

/-- The four particle ids of one tetrahedron (`geom.TetraIdxs`). -/
abbrev TetraIdxs := Fin 4 → ℤ

/-- Modelled from the spec (§4.4): decompose a linear id into lattice
coordinates in base `countWidth`. -/
def coordsOf (id cw : ℤ) : ℤ × ℤ × ℤ :=
  (id % cw, (id % (cw * cw)) / cw, id / (cw * cw))

/-- Modelled from the spec (§4.4): `TetraIdxs.Init` decomposes the
anchor id, forms the eight corners `(ix + a·skip, iy + b·skip,
iz + c·skip)` for `a,b,c ∈ {0,1}`, each coordinate reduced modulo
`countWidth`, and selects four of them by a fixed 6×4 table.  The spec
does not list the table's entries, so the model takes the table as a
parameter. -/
def TetraIdxs.Init (table : Fin 6 → Fin 4 → Fin 2 × Fin 2 × Fin 2)
    (id countWidth skip : ℤ) (dir : Fin 6) : TetraIdxs := fun v =>
  let c := coordsOf id countWidth
  let abc := table dir v
  ((c.1 + (abc.1 : ℤ) * skip) % countWidth) +
    ((c.2.1 + (abc.2.1 : ℤ) * skip) % countWidth) * countWidth +
    ((c.2.2 + (abc.2.2 : ℤ) * skip) % countWidth) * countWidth * countWidth

end rgeom

namespace catalog

/-- A particle record; only the position is relevant to the claims. -/
structure Particle where
  Xs : Vec
deriving DecidableEq

/-- Modelled from the spec (§4.5): the particle manager maps a 64-bit id
to a particle record; `Get` returns absent on a miss. -/
abbrev ParticleManager := ℤ → Option Particle

/-- `ParticleManager.Get`: lookup returning absent on a miss. -/
def ParticleManager.Get (man : ParticleManager) (id : ℤ) : Option Particle :=
  man id

end catalog

namespace density

/-- Adding `v` to a density map at linear index `i`
(the `rhos[idx] += frac` of the source). -/
def addAt (ρ : ℤ → ℚ) (i : ℤ) (v : ℚ) : ℤ → ℚ :=
  Function.update ρ i (ρ i + v)

/-- `density.Grid` of the source: a density array together with its
geometry.  The Go slice `Rhos []float64` (of length `G.Width³`) is
modelled as a total map on linear indices; all writes of the source are
bounds-guarded. -/
structure Grid where
  Rhos : ℤ → ℚ
  BoxWidth : ℚ
  CellWidth : ℚ
  CellVolume : ℚ
  G : rgeom.Grid
  BG : rgeom.Grid

instance : Inhabited Grid :=
  ⟨{ Rhos := fun _ => 0, BoxWidth := 0, CellWidth := 0, CellVolume := 0,
     G := { Origin := ![0, 0, 0], Width := 0 },
     BG := { Origin := ![0, 0, 0], Width := 0 } }⟩

/-- `density.Cell` of the source: a sub-grid's cells-per-side and its
position in units of sub-grids. -/
structure Cell where
  Width : ℤ
  X : ℤ
  Y : ℤ
  Z : ℤ

/-- `Grid.Init` of the source: the sub-grid's origin in the bounding
grid becomes `(c.X·c.Width, c.Y·c.Width, c.Z·c.Width)`, the bounding
grid's width `c.Width·gridWidth`, `CellWidth = boxWidth / BG.Width` and
`CellVolume = CellWidth³`.  (The source's length check of `rhos` is a
panic and has no effect in the map model.) -/
def Grid.Init (boxWidth : ℚ) (gridWidth : ℤ) (rhos : ℤ → ℚ) (c : Cell) :
    Grid :=
  let cw := boxWidth / ((c.Width * gridWidth : ℤ) : ℚ)
  { Rhos := rhos
    BoxWidth := boxWidth
    CellWidth := cw
    CellVolume := cw * cw * cw
    G := { Origin := ![c.X * c.Width, c.Y * c.Width, c.Z * c.Width],
           Width := c.Width }
    BG := { Origin := ![0, 0, 0], Width := c.Width * gridWidth } }

/-- `Grid.incr` of the source: `rhos[idx] += frac` only when `IdxCheck`
succeeds; out-of-window indices are silently dropped. -/
def Grid.incr (g : Grid) (i j k : ℤ) (frac : ℚ) : Grid :=
  let r := g.G.IdxCheck i j k
  if r.2 then { g with Rhos := addAt g.Rhos r.1 frac } else g

/-- `Grid.nbrs` of the source: the periodic neighbor pair of a cell
coordinate, wrapping through the bounding grid. -/
def Grid.nbrs (g : Grid) (i : ℤ) : ℤ × ℤ :=
  if i = -1 then (g.BG.Width - 1, 0)
  else if i + 1 = g.BG.Width then (i, 0)
  else (i, i + 1)

/-- `cellPoints` of the source: the cell coordinates
`floor(x/cw), floor(y/cw), floor(z/cw)`.  The Go function returns the
floors as (integral) floats which the callers convert with `int(·)`;
the model returns the integers directly. -/
def cellPoints (x y z cw : ℚ) : ℤ × ℤ × ℤ :=
  (⌊x / cw⌋, ⌊y / cw⌋, ⌊z / cw⌋)

/-- The per-grid update of `ngp.Interpolate` for one point: add `frac`
to the point's cell if the grid's window contains it.  `cw` and `frac`
come from `gs[0]` exactly as in the source. -/
def ngpPoint (cw frac : ℚ) (pt : Vec) (g : Grid) : Grid :=
  let c := cellPoints (pt 0) (pt 1) (pt 2) cw
  let r := g.G.IdxCheck c.1 c.2.1 c.2.2
  if r.2 then { g with Rhos := addAt g.Rhos r.1 frac } else g

/-- `ngp.Interpolate` (the multi-grid interpolator of the source): for
each point and each grid, deposit `frac = mass / gs[0].CellVolume` into
the point's cell when the grid contains it. -/
def ngpInterpolate (gs : List Grid) (mass : ℚ) (xs : List Vec) :
    List Grid :=
  let frac := mass / gs.headI.CellVolume
  let cw := gs.headI.CellWidth
  xs.foldl (fun cur pt => cur.map (ngpPoint cw frac pt)) gs

/-- The eight `incr` calls of `cic.Interpolate` for one point on one
grid, in source order 000,100,010,110,001,101,011,111. -/
def cicDeposit (i0 i1 j0 j1 k0 k1 : ℤ)
    (o000 o100 o010 o110 o001 o101 o011 o111 : ℚ) (g : Grid) : Grid :=
  ((((((((g.incr i0 j0 k0 o000).incr i1 j0 k0 o100).incr i0 j1 k0
    o010).incr i1 j1 k0 o110).incr i0 j0 k1 o001).incr i1 j0 k1
    o101).incr i0 j1 k1 o011).incr i1 j1 k1 o111)

/-- `cic.Interpolate` of the source: shift each point by `-cw/2`,
compute the fractional offsets, select the periodic neighbor pairs via
`gs[0].nbrs`, and distribute the eight trilinear weights to every
grid. -/
def cicInterpolate (gs : List Grid) (mass : ℚ) (xs : List Vec) :
    List Grid :=
  let frac := mass / gs.headI.CellVolume
  let cw := gs.headI.CellWidth
  let cw2 := cw / 2
  xs.foldl (fun cur pt =>
    let xp := pt 0 - cw2
    let yp := pt 1 - cw2
    let zp := pt 2 - cw2
    let c := cellPoints xp yp zp cw
    let dx := xp / cw - (c.1 : ℚ)
    let dy := yp / cw - (c.2.1 : ℚ)
    let dz := zp / cw - (c.2.2 : ℚ)
    let tx := 1 - dx
    let ty := 1 - dy
    let tz := 1 - dz
    let ni := gs.headI.nbrs c.1
    let nj := gs.headI.nbrs c.2.1
    let nk := gs.headI.nbrs c.2.2
    cur.map (cicDeposit ni.1 ni.2 nj.1 nj.2 nk.1 nk.2
      (tx * ty * tz * frac) (dx * ty * tz * frac) (tx * dy * tz * frac)
      (dx * dy * tz * frac) (tx * ty * dz * frac) (dx * ty * dz * frac)
      (tx * dy * dz * frac) (dx * dy * dz * frac))) gs

/-- `maxInt` of the source. -/
def maxInt (x y : ℤ) : ℤ := if y < x then x else y

/-- `minInt` of the source. -/
def minInt (x y : ℤ) : ℤ := if x < y then x else y

/-- The inclusive integer range `[lo, hi]` enumerated in order, as by
the `for z := minZ; z <= maxZ; z++` loops of the source. -/
def intRange (lo hi : ℤ) : List ℤ :=
  (List.range (hi + 1 - lo).toNat).map fun (n : ℕ) => lo + (n : ℤ)

/-- `cellCenter.intrTetra` of the source: clamp the tetra's cell bounds
to the grid's window, and for every cell of the clamped range (wrapped
through the bounding grid) whose center lies inside the tetrahedron add
`frac = mass · CellVolume / tetra volume`.  The `misses`/`hits`
counters of the source are computed but discarded by the caller and are
omitted. -/
def cellCenterIntrTetra (tet : rgeom.Tetra) (mass : ℚ) (g : Grid)
    (cb : rgeom.CellBounds) : Grid :=
  let minX := maxInt (cb.Min 0) (g.G.Origin 0)
  let maxX := minInt (cb.Max 0) (g.G.Origin 0 + g.G.Width - 1)
  let minY := maxInt (cb.Min 1) (g.G.Origin 1)
  let maxY := minInt (cb.Max 1) (g.G.Origin 1 + g.G.Width - 1)
  let minZ := maxInt (cb.Min 2) (g.G.Origin 2)
  let maxZ := minInt (cb.Max 2) (g.G.Origin 2 + g.G.Width - 1)
  let frac := mass * g.CellVolume / tet.Volume
  { g with Rhos :=
      (intRange minZ maxZ).foldl (fun ρz z =>
        (intRange minY maxY).foldl (fun ρy y =>
          (intRange minX maxX).foldl (fun ρx x =>
            let w := g.BG.Wrap x y z
            let center : Vec :=
              ![((w.1 : ℚ) + 1 / 2) * g.CellWidth,
                ((w.2.1 : ℚ) + 1 / 2) * g.CellWidth,
                ((w.2.2 : ℚ) + 1 / 2) * g.CellWidth]
            if tet.Contains center then
              addAt ρx (g.G.Idx w.1 w.2.1 w.2.2) frac
            else ρx) ρy) ρz) g.Rhos }

/-- The `cellCenter` interpolator's construction data: the particle
manager, the lattice side, and the (spec-modelled) tetrahedron table. -/
structure CellCenterIntr where
  man : catalog.ParticleManager
  countWidth : ℤ
  table : Fin 6 → Fin 4 → Fin 2 × Fin 2 × Fin 2

/-- One `(id, dir)` iteration of `cellCenter.Interpolate`: gather the
four particles (diagnostic and skip on a miss), build and wrap-correct
the tetra, compute its cell bounds, and deposit `mass/6` into every
grid whose intersection test succeeds.  The second component counts the
emitted missing-particle diagnostics. -/
def ccStep (intr : CellCenterIntr) (mass : ℚ) (st : List Grid × ℕ)
    (id : ℤ) (dir : Fin 6) : List Grid × ℕ :=
  let idxs := rgeom.TetraIdxs.Init intr.table id intr.countWidth 1 dir
  match intr.man.Get (idxs 0), intr.man.Get (idxs 1),
      intr.man.Get (idxs 2), intr.man.Get (idxs 3) with
  | some p0, some p1, some p2, some p3 =>
    let tet := rgeom.Tetra.Init p0.Xs p1.Xs p2.Xs p3.Xs st.1.headI.BoxWidth
    let cb := tet.CellBoundsAt st.1.headI.CellWidth
    (st.1.map fun g =>
      if g.G.Intersect cb g.BG then cellCenterIntrTetra tet (mass / 6) g cb
      else g, st.2)
  | _, _, _, _ => (st.1, st.2 + 1)

/-- `cellCenter.Interpolate` of the source: iterate the ids in caller
order and `dir` from 0 to 5, applying `ccStep` to each pair. -/
def cellCenterInterpolate (intr : CellCenterIntr) (gs : List Grid)
    (mass : ℚ) (ids : List ℤ) : List Grid × ℕ :=
  ids.foldl (fun st id =>
    (List.finRange 6).foldl (fun st dir => ccStep intr mass st id dir) st)
    (gs, 0)

end density

namespace density

/-- `PointSelectorFlag` of the source. -/
inductive PointSelectorFlag where
  | Flat
  | PropToCells
deriving DecidableEq

/-- `PointSelectorFromString` of the source; any other string is a
fatal configuration error, modelled as absent. -/
def PointSelectorFromString (str : String) : Option PointSelectorFlag :=
  if str = "Flat" then some .Flat
  else if str = "PropToCells" then some .PropToCells
  else none

/-- `flat` of the source: a point selector always returning the
configured step count. -/
def flat (steps : ℕ) (tet : rgeom.Tetra) (cb : rgeom.CellBounds) : ℕ :=
  steps

/-- `propToCell` of the source: returns the configured steps when the
tetra's minimum edge length is at least 0.251 and 0 otherwise; the
comparison is taken on squared lengths, equivalent for nonnegative
lengths. -/
def propToCell (steps : ℕ) (tet : rgeom.Tetra) (cb : rgeom.CellBounds) :
    ℕ :=
  if (251 / 1000 : ℚ) ^ 2 ≤ tet.MinMaxLegSq.1 then steps else 0

/-- The point-selector dispatch performed by the `MonteCarlo`
constructor of the source. -/
def pointSelect : PointSelectorFlag → ℕ → rgeom.Tetra →
    rgeom.CellBounds → ℕ
  | .Flat => flat
  | .PropToCells => propToCell

/-- The per-grid intersection test used to build `intersectGs` in the
source: `gs[i].G.Intersect(cb, &gs[i].BG)`. -/
def intersectTest (cb : rgeom.CellBounds) (g : Grid) : Bool :=
  g.G.Intersect cb g.BG

/-- Merging the grids returned by a sub-interpolator call back into the
full grid list: the source passes `intersectGs` (struct copies whose
`Rhos` slices alias the originals) to the sub-interpolator, so the
filtered grids are replaced by their updated versions and the rest stay
untouched. -/
def patchFiltered (p : Grid → Bool) : List Grid → List Grid → List Grid
  | [], _ => []
  | g :: gs, upd =>
    if p g then upd.headI :: patchFiltered p gs upd.tail
    else g :: patchFiltered p gs upd

/-- The `mcarlo` interpolator's construction data. -/
structure McarloIntr where
  man : catalog.ParticleManager
  countWidth : ℤ
  steps : ℕ
  gen : rand.Generator
  flag : PointSelectorFlag
  table : Fin 6 → Fin 4 → Fin 2 × Fin 2 × Fin 2

/-- The running state of `mcarlo.Interpolate`: the grids, the mutable
random generator, and the count of emitted diagnostics. -/
structure McState where
  gs : List Grid
  gen : rand.Generator
  diag : ℕ

/-- One `(id, dir)` iteration of `mcarlo.Interpolate`: gather the four
particles (diagnostic and skip on a miss), build the tetra and its cell
bounds, ask the point selector for `pts` (skipping the tetra when it
returns 0), sample `pts` points, and forward them with
`ptMass = mass/pts/6` to the NGP sub-interpolator against exactly the
grids whose intersection test succeeded. -/
def mcStep (intr : McarloIntr) (mass : ℚ) (st : McState) (id : ℤ)
    (dir : Fin 6) : McState :=
  let idxs := rgeom.TetraIdxs.Init intr.table id intr.countWidth 1 dir
  match intr.man.Get (idxs 0), intr.man.Get (idxs 1),
      intr.man.Get (idxs 2), intr.man.Get (idxs 3) with
  | some p0, some p1, some p2, some p3 =>
    let tet := rgeom.Tetra.Init p0.Xs p1.Xs p2.Xs p3.Xs
      st.gs.headI.BoxWidth
    let cb := tet.CellBoundsAt st.gs.headI.CellWidth
    let pts := pointSelect intr.flag intr.steps tet cb
    if pts = 0 then st
    else
      let ptMass := mass / (pts : ℚ) / 6
      let sampled := tet.RandomSample st.gen pts
      { gs := patchFiltered (intersectTest cb) st.gs
          (ngpInterpolate (st.gs.filter (intersectTest cb)) ptMass
            sampled.1)
        gen := sampled.2
        diag := st.diag }
  | _, _, _, _ => { st with diag := st.diag + 1 }

/-- `mcarlo.Interpolate` of the source: iterate the ids in caller order
and `dir` from 0 to 5, applying `mcStep` to each pair. -/
def mcarloInterpolate (intr : McarloIntr) (gs : List Grid) (mass : ℚ)
    (ids : List ℤ) : McState :=
  ids.foldl (fun st id =>
    (List.finRange 6).foldl (fun st dir => mcStep intr mass st id dir) st)
    { gs := gs, gen := intr.gen, diag := 0 }

/-- The `sobol` interpolator's construction data: the Sobol sequence is
precomputed at construction into `xs`, `ys`, `zs`. -/
structure SobolIntr where
  man : catalog.ParticleManager
  countWidth : ℤ
  xs : List ℚ
  ys : List ℚ
  zs : List ℚ
  table : Fin 6 → Fin 4 → Fin 2 × Fin 2 × Fin 2

/-- One `(id, dir)` iteration of `sobol.Interpolate`: like `mcStep` but
mapping the precomputed sequence through the tetra's barycentric
distribution, with the per-point mass fixed by the sequence length. -/
def sobolStep (intr : SobolIntr) (ptMass : ℚ) (st : List Grid × ℕ)
    (id : ℤ) (dir : Fin 6) : List Grid × ℕ :=
  let idxs := rgeom.TetraIdxs.Init intr.table id intr.countWidth 1 dir
  match intr.man.Get (idxs 0), intr.man.Get (idxs 1),
      intr.man.Get (idxs 2), intr.man.Get (idxs 3) with
  | some p0, some p1, some p2, some p3 =>
    let tet := rgeom.Tetra.Init p0.Xs p1.Xs p2.Xs p3.Xs st.1.headI.BoxWidth
    let sampled := tet.Distribute intr.xs intr.ys intr.zs
    let cb := tet.CellBoundsAt st.1.headI.CellWidth
    (patchFiltered (intersectTest cb) st.1
      (ngpInterpolate (st.1.filter (intersectTest cb)) ptMass sampled),
     st.2)
  | _, _, _, _ => (st.1, st.2 + 1)

/-- `sobol.Interpolate` of the source: `ptMass = mass/len(xs)/6` fixed
up front, then the usual id × dir iteration. -/
def sobolInterpolate (intr : SobolIntr) (gs : List Grid) (mass : ℚ)
    (ids : List ℤ) : List Grid × ℕ :=
  let ptMass := mass / (intr.xs.length : ℚ) / 6
  ids.foldl (fun st id =>
    (List.finRange 6).foldl (fun st dir => sobolStep intr ptMass st id dir)
      st)
    (gs, 0)

end density

namespace los

/-- The sheet header fields used by the wrap helpers (`io.SheetHeader`
is an external contract per §6 of the spec). -/
structure SheetHeader where
  TotalWidth : ℚ
  Origin : Vec

/-- Modelled from the spec (§6): the externally-contracted halo profile
carries a center `C` and a radius `R`. -/
structure HaloProfiles where
  C : Vec
  R : ℚ
deriving DecidableEq

/-- `WrapXs` of the source: add `TotalWidth` to every position
coordinate that falls below the sheet's origin. -/
def WrapXs (xs : List Vec) (hd : SheetHeader) : List Vec :=
  xs.map fun v => fun j =>
    if v j < hd.Origin j then v j + hd.TotalWidth else v j

/-- `WrapHalo` of the source: add `TotalWidth` to a halo center
coordinate `C[j]` when `C[j] + R < Origin[j]`. -/
def WrapHalo (hps : List HaloProfiles) (hd : SheetHeader) :
    List HaloProfiles :=
  hps.map fun h =>
    { h with C := fun j =>
        if h.C j + h.R < hd.Origin j then h.C j + hd.TotalWidth
        else h.C j }

end los

namespace io

/-- `io.BallConfig` of `src/io/config.go`. -/
structure BallConfig where
  X : ℚ
  Y : ℚ
  Z : ℚ
  Radius : ℚ
  RadiusMultiplier : ℚ
  Name : String

/-- `io.BoxConfig` of `src/io/config.go`. -/
structure BoxConfig where
  X : ℚ
  Y : ℚ
  Z : ℚ
  XWidth : ℚ
  YWidth : ℚ
  ZWidth : ℚ
  ProjectionAxis : String
  Name : String

/-- `BallConfig.CheckInit` of the source: validate the radius and the
center coordinates, record the name, and default the radius multiplier
to 1; on success the updated config is returned. -/
def BallConfig.CheckInit (ball : BallConfig) (name : String)
    (totalWidth : ℚ) : Except String BallConfig :=
  if ball.Radius = 0 then
    .error ("Need to specify a positive radius for Ball " ++ name)
  else if totalWidth ≤ ball.X ∨ ball.X < 0 then
    .error ("X center of Ball " ++ name ++ " out of range")
  else if totalWidth ≤ ball.Y ∨ ball.Y < 0 then
    .error ("Y center of Ball " ++ name ++ " out of range")
  else if totalWidth ≤ ball.Z ∨ ball.Z < 0 then
    .error ("Z center of Ball " ++ name ++ " out of range")
  else
    let ball := { ball with Name := name }
    if ball.RadiusMultiplier = 0 then
      .ok { ball with RadiusMultiplier := 1 }
    else if ball.RadiusMultiplier < 0 then
      .error ("Ball " ++ name ++ " given a negative radius multiplier")
    else .ok ball

/-- `BallConfig.Box` of the source: the bounding box of the ball, with
each origin coordinate wrapped up by `totalWidth` when the center does
not exceed the effective radius. -/
def BallConfig.Box (ball : BallConfig) (totalWidth : ℚ) : BoxConfig :=
  let rad := ball.Radius * ball.RadiusMultiplier
  { X := if rad < ball.X then ball.X - rad else ball.X - rad + totalWidth
    Y := if rad < ball.Y then ball.Y - rad else ball.Y - rad + totalWidth
    Z := if rad < ball.Z then ball.Z - rad else ball.Z - rad + totalWidth
    XWidth := 2 * rad
    YWidth := 2 * rad
    ZWidth := 2 * rad
    ProjectionAxis := ""
    Name := ball.Name }

/-- `BoxConfig.CheckInit` of the source: validate the widths and the
origin, then upper-case the projection axis and test the condition
`PA ≠ "" ∨ PA ≠ "X" ∨ PA ≠ "Y" ∨ PA ≠ "Z"`, exactly as written in the
source (`||` of `!=` comparisons); when it holds an error is
returned. -/
def BoxConfig.CheckInit (box : BoxConfig) (name : String)
    (totalWidth : ℚ) : Except String BoxConfig :=
  if box.XWidth ≤ 0 then
    .error ("Need to specify a positive XWidth for Box " ++ name)
  else if box.YWidth ≤ 0 then
    .error ("Need to specify a positive YWidth for Box " ++ name)
  else if box.ZWidth ≤ 0 then
    .error ("Need to specify a positive ZWidth for Box " ++ name)
  else if totalWidth ≤ box.X ∨ box.X < 0 then
    .error ("X origin of Box " ++ name ++ " out of range")
  else if totalWidth ≤ box.Y ∨ box.Y < 0 then
    .error ("Y origin of Box " ++ name ++ " out of range")
  else if totalWidth ≤ box.Z ∨ box.Z < 0 then
    .error ("Z origin of Box " ++ name ++ " out of range")
  else
    let box := { box with ProjectionAxis := box.ProjectionAxis.toUpper }
    if box.ProjectionAxis ≠ "" ∨ box.ProjectionAxis ≠ "X" ∨
        box.ProjectionAxis ≠ "Y" ∨ box.ProjectionAxis ≠ "Z" then
      .error ("ProjectionAxis of Box " ++ box.Name ++
        " must be one of [X | Y | Z].")
    else .ok { box with Name := name }

/-- The parsed bounds file: the `Ball` and `Box` sections.  The on-disk
parsing is done by the external `gcfg` library; the model starts from
its result. -/
structure BoundsConfig where
  Ball : List (String × BallConfig)
  Box : List (String × BoxConfig)

/-- The ball loop of `ReadBoundsConfig`: check each ball and convert it
to its bounding box, stopping at the first error. -/
def checkBalls (balls : List (String × BallConfig)) (totalWidth : ℚ) :
    Except String (List BoxConfig) :=
  match balls with
  | [] => .ok []
  | (name, ball) :: rest =>
    match ball.CheckInit name totalWidth with
    | .error e => .error e
    | .ok ball =>
      match checkBalls rest totalWidth with
      | .error e => .error e
      | .ok boxes => .ok (ball.Box totalWidth :: boxes)

/-- The box loop of `ReadBoundsConfig`: check each box, stopping at the
first error. -/
def checkBoxes (boxes : List (String × BoxConfig)) (totalWidth : ℚ) :
    Except String (List BoxConfig) :=
  match boxes with
  | [] => .ok []
  | (name, box) :: rest =>
    match box.CheckInit name totalWidth with
    | .error e => .error e
    | .ok box =>
      match checkBoxes rest totalWidth with
      | .error e => .error e
      | .ok rest => .ok (box :: rest)

/-- `ReadBoundsConfig` of the source, applied to the already-parsed
bounds file: validate every ball and box section and collect the
resulting boxes, propagating the first error. -/
def ReadBoundsConfig (bc : BoundsConfig) (totalWidth : ℚ) :
    Except String (List BoxConfig) :=
  match checkBalls bc.Ball totalWidth with
  | .error e => .error e
  | .ok ballBoxes =>
    match checkBoxes bc.Box totalWidth with
    | .error e => .error e
    | .ok boxes => .ok (ballBoxes ++ boxes)

end io

/-! ## Facts about `Tetra.Orient` (claim C6) -/

namespace geom

lemma orientDot_eq_neg_triple (t : Tetra) :
    t.orientDot = -tripleProduct t := by
  simp only [Tetra.orientDot, tripleProduct]
  ring

lemma swap01_apply_zero (t : Tetra) : swap01 t 0 = t 1 := rfl

lemma swap01_apply_one (t : Tetra) : swap01 t 1 = t 0 := rfl

lemma swap01_apply_two (t : Tetra) : swap01 t 2 = t 2 := rfl

lemma swap01_apply_three (t : Tetra) : swap01 t 3 = t 3 := rfl

lemma swap01_swap01 (t : Tetra) : swap01 (swap01 t) = t := by
  funext i
  fin_cases i <;> rfl

lemma tripleProduct_swap01 (t : Tetra) :
    tripleProduct (swap01 t) = -tripleProduct t := by
  simp only [tripleProduct, swap01_apply_zero, swap01_apply_one,
    swap01_apply_two, swap01_apply_three]
  ring

/-- `Orient` characterized through the triple product: it swaps the
first two vertices exactly when the triple product's sign disagrees
with `dir ∈ {+1, -1}`. -/
lemma Orient_eq (t : Tetra) (dir : ℤ) :
    t.Orient dir =
      if (0 < tripleProduct t ∧ dir = -1) ∨ (tripleProduct t < 0 ∧ dir = 1)
      then swap01 t else t := by
  unfold Tetra.Orient
  rw [orientDot_eq_neg_triple]
  simp only [neg_lt_zero, neg_pos]

lemma tripleProduct_orient_one_pos (t : Tetra)
    (h : tripleProduct t ≠ 0) : 0 < tripleProduct (t.Orient 1) := by
  rw [Orient_eq]
  rcases lt_trichotomy (tripleProduct t) 0 with hlt | heq | hgt
  · rw [if_pos (Or.inr ⟨hlt, rfl⟩), tripleProduct_swap01]
    linarith
  · exact absurd heq h
  · rw [if_neg]
    · exact hgt
    · rintro (⟨_, h1⟩ | ⟨h2, _⟩)
      · exact absurd h1 (by decide)
      · linarith

lemma tripleProduct_orient_negone_neg (t : Tetra)
    (h : tripleProduct t ≠ 0) : tripleProduct (t.Orient (-1)) < 0 := by
  rw [Orient_eq]
  rcases lt_trichotomy (tripleProduct t) 0 with hlt | heq | hgt
  · rw [if_neg]
    · exact hlt
    · rintro (⟨h1, _⟩ | ⟨_, h2⟩)
      · linarith
      · exact absurd h2 (by decide)
  · exact absurd heq h
  · rw [if_pos (Or.inl ⟨hgt, rfl⟩), tripleProduct_swap01]
    linarith

lemma orient_one_of_pos (t : Tetra) (h : 0 < tripleProduct t) :
    t.Orient 1 = t := by
  rw [Orient_eq, if_neg]
  rintro (⟨_, h1⟩ | ⟨h2, _⟩)
  · exact absurd h1 (by decide)
  · linarith

lemma orient_one_of_neg (t : Tetra) (h : tripleProduct t < 0) :
    t.Orient 1 = swap01 t := by
  rw [Orient_eq, if_pos (Or.inr ⟨h, rfl⟩)]

lemma orient_negone_of_pos (t : Tetra) (h : 0 < tripleProduct t) :
    t.Orient (-1) = swap01 t := by
  rw [Orient_eq, if_pos (Or.inl ⟨h, rfl⟩)]

end geom

/-- C6 (amended): for every tetrahedron with a nonzero scalar triple
product of `(v1-v0, v2-v0, v3-v0)`, `Orient(dir)` changes at most the
order of vertices 0 and 1; for `dir = ±1` it leaves the triple product
(six times the signed volume) with the sign of `dir`; after `Orient(+1)`
the triple product is positive, and swapping v0 and v1 and calling
`Orient(+1)` again restores the same vertex order; the sequence
`Orient(+1); Orient(-1); Orient(+1)` coincides with a single
`Orient(+1)`, and is therefore the identity on vertex order exactly on
the tetrahedra whose triple product is already positive (the amendment:
on a tetrahedron with a negative triple product the sequence ends in
the swapped order produced by the first `Orient(+1)`, see the
counterexample). -/
theorem C6_orient_sign_roundtrip (t : geom.Tetra)
    (h : geom.tripleProduct t ≠ 0) :
    (∀ dir : ℤ, t.Orient dir = t ∨ t.Orient dir = geom.swap01 t) ∧
    0 < geom.tripleProduct (t.Orient 1) ∧
    geom.tripleProduct (t.Orient (-1)) < 0 ∧
    (geom.swap01 (t.Orient 1)).Orient 1 = t.Orient 1 ∧
    ((t.Orient 1).Orient (-1)).Orient 1 = t.Orient 1 ∧
    (0 < geom.tripleProduct t →
      ((t.Orient 1).Orient (-1)).Orient 1 = t) := by
  have hpos : 0 < geom.tripleProduct (t.Orient 1) :=
    geom.tripleProduct_orient_one_pos t h
  have hswap : (geom.swap01 (t.Orient 1)).Orient 1 = t.Orient 1 := by
    have hneg : geom.tripleProduct (geom.swap01 (t.Orient 1)) < 0 := by
      rw [geom.tripleProduct_swap01]; linarith
    rw [geom.orient_one_of_neg _ hneg, geom.swap01_swap01]
  have hseq : ((t.Orient 1).Orient (-1)).Orient 1 = t.Orient 1 := by
    rw [geom.orient_negone_of_pos _ hpos]
    exact hswap
  refine ⟨?_, hpos, geom.tripleProduct_orient_negone_neg t h, hswap, hseq,
    ?_⟩
  · intro dir
    rw [geom.Orient_eq]
    split
    · exact Or.inr rfl
    · exact Or.inl rfl
  · intro hp
    rw [hseq, geom.orient_one_of_pos t hp]

/-- A tetrahedron with triple product `-1`, used to refute the
round-trip clause of C6 as stated. -/
def tC6neg : geom.Tetra := ![![0, 0, 0], ![0, 1, 0], ![1, 0, 0], ![0, 0, 1]]

/-- A tetrahedron with triple product `+1`, used as the witness input
for C6. -/
def tC6pos : geom.Tetra := ![![0, 0, 0], ![1, 0, 0], ![0, 1, 0], ![0, 0, 1]]

/-- C6 counterexample: on the concrete tetrahedron with vertices
(0,0,0),(0,1,0),(1,0,0),(0,0,1) — nonzero (negative) triple product —
the sequence `Orient(+1); Orient(-1); Orient(+1)` is NOT the identity
on vertex order, refuting the round-trip clause of the claim as
stated. -/
theorem C6_counterexample :
    geom.tripleProduct tC6neg ≠ 0 ∧
    ((tC6neg.Orient 1).Orient (-1)).Orient 1 ≠ tC6neg := by
  have htp : geom.tripleProduct tC6neg = -1 := by
    norm_num [geom.tripleProduct, tC6neg]
  have hneg : geom.tripleProduct tC6neg < 0 := by rw [htp]; norm_num
  have h1 : tC6neg.Orient 1 = geom.swap01 tC6neg :=
    geom.orient_one_of_neg _ hneg
  have hpos : 0 < geom.tripleProduct (geom.swap01 tC6neg) := by
    rw [geom.tripleProduct_swap01, htp]; norm_num
  have h2 : (geom.swap01 tC6neg).Orient (-1) = tC6neg := by
    rw [geom.orient_negone_of_pos _ hpos, geom.swap01_swap01]
  refine ⟨by rw [htp]; norm_num, ?_⟩
  rw [h1, h2, h1]
  intro h
  have hval := congrFun (congrFun h 0) 1
  simp [geom.swap01, tC6neg] at hval

/-- C6 witness: the amended theorem applied to a concrete positively
oriented tetrahedron. -/
theorem C6_witness :
    geom.tripleProduct tC6pos ≠ 0 ∧
    0 < geom.tripleProduct (tC6pos.Orient 1) ∧
    ((tC6pos.Orient 1).Orient (-1)).Orient 1 = tC6pos :=
  ⟨by norm_num [geom.tripleProduct, tC6pos],
   (C6_orient_sign_roundtrip tC6pos
     (by norm_num [geom.tripleProduct, tC6pos])).2.1,
   (C6_orient_sign_roundtrip tC6pos
     (by norm_num [geom.tripleProduct, tC6pos])).2.2.2.2.2
     (by norm_num [geom.tripleProduct, tC6pos])⟩

/-- C9: consistency of the Plücker edge tables with the face-vertex
table.  For every face `f` and edge position `e`, with
`(idx, flip) = EdgeIdx(f, e)`, the entry `pt[idx]` of a `PluckerTetra`
built by `Init` is the segment Plücker vector of the edge joining
`t[VertexIdx(f,e)]` and `t[VertexIdx(f,(e+1) mod 3)]` (taken in the raw
direction), and `flip` is true exactly when the raw edge orientation in
the order {0-1, 0-2, 0-3, 1-2, 1-3, 2-3} is opposite to the face
traversal direction from `VertexIdx(f,e)` to `VertexIdx(f,(e+1) mod 3)`;
the first conjunct records that `Init` stores the raw edges in exactly
that order. -/
theorem C9_plucker_tables (sq : ℚ → ℚ) (t : geom.Tetra) (f : Fin 4)
    (e : Fin 3) :
    (∀ m : Fin 6, geom.PluckerTetra.Init sq t m =
      geom.PluckerVec.InitFromSegment sq (t (geom.rawEdge m).1)
        (t (geom.rawEdge m).2)) ∧
    geom.PluckerTetra.Init sq t (geom.PluckerTetra.EdgeIdx f e).1 =
      (if (geom.PluckerTetra.EdgeIdx f e).2 then
        geom.PluckerVec.InitFromSegment sq (t (geom.Tetra.VertexIdx f (e + 1)))
          (t (geom.Tetra.VertexIdx f e))
      else
        geom.PluckerVec.InitFromSegment sq (t (geom.Tetra.VertexIdx f e))
          (t (geom.Tetra.VertexIdx f (e + 1)))) ∧
    geom.rawEdge (geom.PluckerTetra.EdgeIdx f e).1 =
      (if (geom.PluckerTetra.EdgeIdx f e).2 then
        (geom.Tetra.VertexIdx f (e + 1), geom.Tetra.VertexIdx f e)
      else
        (geom.Tetra.VertexIdx f e, geom.Tetra.VertexIdx f (e + 1))) := by
  refine ⟨?_, ?_, ?_⟩
  · intro m
    fin_cases m <;> rfl
  · fin_cases f <;> fin_cases e <;> rfl
  · fin_cases f <;> fin_cases e <;> rfl

/-! ## Facts about the bounds-configuration validation (claim C10) -/

namespace io

/-- A box passes the width and origin checks of `BoxConfig.CheckInit`. -/
def BoxConfig.WidthOriginOk (box : BoxConfig) (tw : ℚ) : Prop :=
  0 < box.XWidth ∧ 0 < box.YWidth ∧ 0 < box.ZWidth ∧
  0 ≤ box.X ∧ box.X < tw ∧ 0 ≤ box.Y ∧ box.Y < tw ∧
  0 ≤ box.Z ∧ box.Z < tw

lemma string_ne_one_of_xyz (s : String) :
    s ≠ "" ∨ s ≠ "X" ∨ s ≠ "Y" ∨ s ≠ "Z" := by
  by_cases h : s = "X"
  · exact Or.inl (by rw [h]; decide)
  · exact Or.inr (Or.inl h)

lemma boxCheckInit_isError (box : BoxConfig) (name : String) (tw : ℚ)
    (h : box.WidthOriginOk tw) :
    ∃ msg, box.CheckInit name tw = .error msg := by
  obtain ⟨h1, h2, h3, h4, h5, h6, h7, h8, h9⟩ := h
  unfold BoxConfig.CheckInit
  rw [if_neg (by linarith), if_neg (by linarith), if_neg (by linarith),
    if_neg (by rw [not_or, not_le, not_lt]; exact ⟨h5, h4⟩),
    if_neg (by rw [not_or, not_le, not_lt]; exact ⟨h7, h6⟩),
    if_neg (by rw [not_or, not_le, not_lt]; exact ⟨h9, h8⟩),
    if_pos (string_ne_one_of_xyz _)]
  exact ⟨_, rfl⟩

lemma checkBoxes_isError (l : List (String × BoxConfig)) (tw : ℚ)
    (h : ∃ nb ∈ l, nb.2.WidthOriginOk tw) :
    ∃ msg, checkBoxes l tw = .error msg := by
  induction l with
  | nil => simp at h
  | cons hd tl ih =>
    obtain ⟨nb, hmem, hok⟩ := h
    rw [checkBoxes]
    rcases List.mem_cons.mp hmem with heq | htl
    · obtain ⟨msg, herr⟩ := boxCheckInit_isError hd.2 hd.1 tw (heq ▸ hok)
      exact ⟨msg, by rw [herr]⟩
    · cases herr : hd.2.CheckInit hd.1 tw with
      | error e => exact ⟨e, rfl⟩
      | ok b =>
        obtain ⟨msg, htlerr⟩ := ih ⟨nb, htl, hok⟩
        exact ⟨msg, by rw [htlerr]⟩

end io

/-- C10: for every `BoxConfig` whose widths are positive and whose
origin lies in `[0, totalWidth)`, `CheckInit` returns an error for
every value of `ProjectionAxis` (the validation condition is a
disjunction of dis-equalities no string satisfies simultaneously), and
consequently `ReadBoundsConfig` never returns successfully for a parsed
bounds file containing a Box section that passes the width and origin
checks. -/
theorem C10_projection_axis_always_errors :
    (∀ (box : io.BoxConfig) (name : String) (tw : ℚ),
      box.WidthOriginOk tw → ∃ msg, box.CheckInit name tw = .error msg) ∧
    (∀ (bc : io.BoundsConfig) (tw : ℚ),
      (∃ nb ∈ bc.Box, nb.2.WidthOriginOk tw) →
      ∃ msg, io.ReadBoundsConfig bc tw = .error msg) := by
  refine ⟨io.boxCheckInit_isError, fun bc tw h => ?_⟩
  unfold io.ReadBoundsConfig
  cases hballs : io.checkBalls bc.Ball tw with
  | error e => exact ⟨e, rfl⟩
  | ok ballBoxes =>
    obtain ⟨msg, herr⟩ := io.checkBoxes_isError bc.Box tw h
    exact ⟨msg, by rw [herr]⟩

/-- The concrete Box section used by the C10 witness: positive widths,
origin inside `[0, 10)`, and the documented `ProjectionAxis` value
`"Z"`. -/
def boxC10 : io.BoxConfig :=
  { X := 1, Y := 2, Z := 3, XWidth := 4, YWidth := 4, ZWidth := 1,
    ProjectionAxis := "Z", Name := "" }

/-- The parsed bounds file used by the C10 witness: no balls, one box
passing the width and origin checks. -/
def bcC10 : io.BoundsConfig := { Ball := [], Box := [("slice", boxC10)] }

/-- C10 witness: the theorem applied to the concrete box and parsed
bounds file. -/
theorem C10_witness :
    boxC10.WidthOriginOk 10 ∧
    (∃ msg, boxC10.CheckInit "slice" 10 = .error msg) ∧
    (∃ msg, io.ReadBoundsConfig bcC10 10 = .error msg) :=
  ⟨by norm_num [io.BoxConfig.WidthOriginOk, boxC10],
   C10_projection_axis_always_errors.1 boxC10 "slice" 10
     (by norm_num [io.BoxConfig.WidthOriginOk, boxC10]),
   C10_projection_axis_always_errors.2 bcC10 10
     ⟨("slice", boxC10), by simp [bcC10],
      by norm_num [io.BoxConfig.WidthOriginOk, boxC10]⟩⟩

/-! ## Claim C8: one-sided periodic wraps -/

/-- The zero vector, used as a harmless list default. -/
def vzero : Vec := fun _ => 0

/-- A harmless default halo profile. -/
def hzero : los.HaloProfiles := { C := vzero, R := 0 }

lemma getD_map_of_lt {α β : Type} (f : α → β) (l : List α) (i : ℕ)
    (d : β) (d' : α) (h : i < l.length) :
    (l.map f).getD i d = f (l.getD i d') := by
  simp [List.getD_eq_getElem?_getD, List.getElem?_map,
    List.getElem?_eq_getElem h]

/-- C8 (amended): `WrapXs` adds `TotalWidth` to exactly those position
coordinates `xs[i][j]` with `xs[i][j] < Origin[j]` and leaves the
others unchanged; `WrapHalo` adds `TotalWidth` to exactly those
halo-center coordinates `C[j]` with `C[j] + R < Origin[j]` (the
amendment: the source shifts a center coordinate only when even
`C[j] + R` falls below the origin, not whenever `C[j]` does), leaving
the other coordinates and the radius unchanged. -/
theorem C8_wrap_one_sided (xs : List Vec) (hps : List los.HaloProfiles)
    (hd : los.SheetHeader) :
    (los.WrapXs xs hd).length = xs.length ∧
    (∀ (i : ℕ) (j : Fin 3), i < xs.length →
      (xs.getD i vzero j < hd.Origin j →
        (los.WrapXs xs hd).getD i vzero j =
          xs.getD i vzero j + hd.TotalWidth) ∧
      (¬ xs.getD i vzero j < hd.Origin j →
        (los.WrapXs xs hd).getD i vzero j = xs.getD i vzero j)) ∧
    (los.WrapHalo hps hd).length = hps.length ∧
    (∀ (i : ℕ) (j : Fin 3), i < hps.length →
      ((hps.getD i hzero).C j + (hps.getD i hzero).R < hd.Origin j →
        ((los.WrapHalo hps hd).getD i hzero).C j =
          (hps.getD i hzero).C j + hd.TotalWidth) ∧
      (¬ (hps.getD i hzero).C j + (hps.getD i hzero).R < hd.Origin j →
        ((los.WrapHalo hps hd).getD i hzero).C j =
          (hps.getD i hzero).C j) ∧
      ((los.WrapHalo hps hd).getD i hzero).R =
        (hps.getD i hzero).R) := by
  refine ⟨by simp [los.WrapXs], ?_, by simp [los.WrapHalo], ?_⟩
  · intro i j hi
    rw [los.WrapXs, getD_map_of_lt _ _ _ _ vzero hi]
    constructor
    · intro hlt
      rw [if_pos hlt]
    · intro hge
      rw [if_neg hge]
  · intro i j hi
    rw [los.WrapHalo, getD_map_of_lt _ _ _ _ hzero hi]
    refine ⟨?_, ?_, rfl⟩
    · intro hlt
      exact if_pos hlt
    · intro hge
      exact if_neg hge

/-- The sheet header of the C8 counterexample and witness: total width
10 and origin (1, 0, 0). -/
def hdC8 : los.SheetHeader := { TotalWidth := 10, Origin := ![1, 0, 0] }

/-- The halo of the C8 counterexample: center (0,0,0) and radius 5, so
`C[0] < Origin[0]` but `C[0] + R ≥ Origin[0]`. -/
def haloC8 : los.HaloProfiles := { C := ![0, 0, 0], R := 5 }

/-- C8 counterexample: the halo's first center coordinate falls below
the sheet origin, yet `WrapHalo` leaves it unchanged instead of adding
`TotalWidth` as the claim states. -/
theorem C8_counterexample :
    haloC8.C 0 < hdC8.Origin 0 ∧
    ((los.WrapHalo [haloC8] hdC8).getD 0 hzero).C 0 = haloC8.C 0 ∧
    ((los.WrapHalo [haloC8] hdC8).getD 0 hzero).C 0 ≠
      haloC8.C 0 + hdC8.TotalWidth := by
  refine ⟨by norm_num [haloC8, hdC8], ?_, ?_⟩ <;>
    norm_num [los.WrapHalo, haloC8, hdC8]

/-- The position list of the C8 witness. -/
def xsC8 : List Vec := [![0, 5, 0]]

/-- C8 witness: the amended theorem applied to one position and one
halo under the concrete header. -/
theorem C8_witness :
    ((0 : ℕ) < xsC8.length ∧ xsC8.getD 0 vzero 0 < hdC8.Origin 0) ∧
    (los.WrapXs xsC8 hdC8).getD 0 vzero 0 =
      xsC8.getD 0 vzero 0 + hdC8.TotalWidth ∧
    ((0 : ℕ) < [haloC8].length ∧
      ¬ haloC8.C 0 + haloC8.R < hdC8.Origin 0) ∧
    ((los.WrapHalo [haloC8] hdC8).getD 0 hzero).C 0 =
      ([haloC8].getD 0 hzero).C 0 :=
  ⟨⟨by norm_num [xsC8], by norm_num [xsC8, hdC8]⟩,
   ((C8_wrap_one_sided xsC8 [haloC8] hdC8).2.1 0 0
       (by norm_num [xsC8])).1 (by norm_num [xsC8, hdC8]),
   ⟨by norm_num, by norm_num [haloC8, hdC8]⟩,
   (((C8_wrap_one_sided xsC8 [haloC8] hdC8).2.2.2 0 0
       (by norm_num)).2.1 (by norm_num [haloC8, hdC8]))⟩

/-! ## Shared facts about the density model -/

namespace density

lemma addAt_self (ρ : ℤ → ℚ) (i : ℤ) (v : ℚ) : addAt ρ i v i = ρ i + v := by
  simp [addAt]

lemma addAt_ne (ρ : ℤ → ℚ) (i : ℤ) (v : ℚ) {j : ℤ} (h : j ≠ i) :
    addAt ρ i v j = ρ j := by
  simp [addAt, Function.update, h]

lemma IdxCheck_fst (g : rgeom.Grid) (i j k : ℤ) :
    (g.IdxCheck i j k).1 = g.Idx i j k := rfl

lemma IdxCheck_snd_iff (g : rgeom.Grid) (i j k : ℤ) :
    (g.IdxCheck i j k).2 = true ↔ g.InWindow i j k := by
  simp [rgeom.Grid.IdxCheck, rgeom.Grid.InWindow]

lemma foldl_map_comm {α β : Type} (u : β → α → α) (l : List β)
    (gs : List α) :
    l.foldl (fun cur pt => cur.map (u pt)) gs =
      gs.map (fun g => l.foldl (fun g' pt => u pt g') g) := by
  induction l generalizing gs with
  | nil => simp
  | cons hd tl ih =>
    simp only [List.foldl_cons]
    rw [ih, List.map_map]
    rfl

lemma ngpInterpolate_eq_map (gs : List Grid) (mass : ℚ) (xs : List Vec) :
    ngpInterpolate gs mass xs =
      gs.map (fun g => xs.foldl
        (fun g' pt =>
          ngpPoint gs.headI.CellWidth (mass / gs.headI.CellVolume) pt g') g) :=
  foldl_map_comm _ xs gs

lemma ngpPoint_G (cw frac : ℚ) (pt : Vec) (g : Grid) :
    (ngpPoint cw frac pt g).G = g.G := by
  unfold ngpPoint
  dsimp only
  split <;> rfl

lemma ngpPoint_Rhos (cw frac : ℚ) (pt : Vec) (g : Grid) (m : ℤ)
    (h : ∀ i j k : ℤ, g.G.InWindow i j k → g.G.Idx i j k ≠ m) :
    (ngpPoint cw frac pt g).Rhos m = g.Rhos m := by
  unfold ngpPoint
  dsimp only
  split
  · next hin =>
    have hw := (IdxCheck_snd_iff g.G _ _ _).mp hin
    exact addAt_ne _ _ _ (fun he => h _ _ _ hw (by rw [← IdxCheck_fst, he]))
  · rfl

lemma incr_G (g : Grid) (i j k : ℤ) (frac : ℚ) :
    (g.incr i j k frac).G = g.G := by
  unfold Grid.incr
  dsimp only
  split <;> rfl

lemma incr_Rhos_frame (g : Grid) (i j k : ℤ) (frac : ℚ) (m : ℤ)
    (h : ∀ i' j' k' : ℤ, g.G.InWindow i' j' k' → g.G.Idx i' j' k' ≠ m) :
    (g.incr i j k frac).Rhos m = g.Rhos m := by
  unfold Grid.incr
  dsimp only
  split
  · next hin =>
    have hw := (IdxCheck_snd_iff g.G _ _ _).mp hin
    exact addAt_ne _ _ _ (fun he => h _ _ _ hw (by rw [← IdxCheck_fst, he]))
  · rfl

lemma incr_of_inWindow (g : Grid) (i j k : ℤ) (frac : ℚ)
    (h : g.G.InWindow i j k) :
    g.incr i j k frac = { g with Rhos := addAt g.Rhos (g.G.Idx i j k) frac } := by
  unfold Grid.incr
  dsimp only
  rw [if_pos ((IdxCheck_snd_iff g.G i j k).mpr h)]
  rfl

lemma incr_of_not_inWindow (g : Grid) (i j k : ℤ) (frac : ℚ)
    (h : ¬ g.G.InWindow i j k) :
    g.incr i j k frac = g := by
  unfold Grid.incr
  dsimp only
  rw [if_neg]
  intro hc
  exact h ((IdxCheck_snd_iff g.G i j k).mp hc)

end density

namespace density

lemma ngpPoint_of_inWindow (cw frac : ℚ) (pt : Vec) (g : Grid)
    (i j k : ℤ) (hc : cellPoints (pt 0) (pt 1) (pt 2) cw = (i, j, k))
    (h : g.G.InWindow i j k) :
    ngpPoint cw frac pt g =
      { g with Rhos := addAt g.Rhos (g.G.Idx i j k) frac } := by
  unfold ngpPoint
  rw [hc]
  dsimp only
  rw [if_pos ((IdxCheck_snd_iff g.G i j k).mpr h)]
  rfl

lemma ngpPoint_of_not_inWindow (cw frac : ℚ) (pt : Vec) (g : Grid)
    (i j k : ℤ) (hc : cellPoints (pt 0) (pt 1) (pt 2) cw = (i, j, k))
    (h : ¬ g.G.InWindow i j k) :
    ngpPoint cw frac pt g = g := by
  unfold ngpPoint
  rw [hc]
  dsimp only
  rw [if_neg]
  intro hb
  exact h ((IdxCheck_snd_iff g.G i j k).mp hb)

end density

/-- The target grid of the spec's scenario A: bounding grid width 4,
one target grid of width 4 at the origin, box width 1, all-zero
densities. -/
def gridC4 : density.Grid :=
  density.Grid.Init 1 1 (fun _ => 0) ⟨4, 0, 0, 0⟩

/-- The single point of scenario A. -/
def ptC4 : Vec := ![3 / 8, 3 / 8, 3 / 8]

/-- C4: NGP deposition formula — for a single point, every grid whose
window contains the point's cell `floor(p/cw)` (with `cw` taken from
`gs[0]`) gains `mass / gs[0].CellVolume` at that cell and grids not
containing the cell are unchanged — together with the spec's literal
scenario A: grid width 4 at the origin, box width 1, zero densities,
point (0.375, 0.375, 0.375), mass 2; the cell (1,1,1) (linear index 21)
gains exactly 128 and every other linear index is unchanged. -/
theorem C4_ngp_formula_and_scenario :
    (∀ (gs : List density.Grid) (mass : ℚ) (pt : Vec) (n : ℕ)
      (i j k : ℤ), n < gs.length →
      density.cellPoints (pt 0) (pt 1) (pt 2) gs.headI.CellWidth =
        (i, j, k) →
      (((gs.getD n default).G.InWindow i j k →
        (density.ngpInterpolate gs mass [pt]).getD n default =
          { gs.getD n default with
            Rhos := density.addAt (gs.getD n default).Rhos
              ((gs.getD n default).G.Idx i j k)
              (mass / gs.headI.CellVolume) }) ∧
      (¬ (gs.getD n default).G.InWindow i j k →
        (density.ngpInterpolate gs mass [pt]).getD n default =
          gs.getD n default))) ∧
    ((density.ngpInterpolate [gridC4] 2 [ptC4]).getD 0 default).Rhos 21 =
      128 ∧
    (∀ m : ℤ, m ≠ 21 →
      ((density.ngpInterpolate [gridC4] 2 [ptC4]).getD 0 default).Rhos m =
        0) := by
  have hgen : ∀ (gs : List density.Grid) (mass : ℚ) (pt : Vec) (n : ℕ)
      (i j k : ℤ), n < gs.length →
      density.cellPoints (pt 0) (pt 1) (pt 2) gs.headI.CellWidth =
        (i, j, k) →
      (((gs.getD n default).G.InWindow i j k →
        (density.ngpInterpolate gs mass [pt]).getD n default =
          { gs.getD n default with
            Rhos := density.addAt (gs.getD n default).Rhos
              ((gs.getD n default).G.Idx i j k)
              (mass / gs.headI.CellVolume) }) ∧
      (¬ (gs.getD n default).G.InWindow i j k →
        (density.ngpInterpolate gs mass [pt]).getD n default =
          gs.getD n default)) := by
    intro gs mass pt n i j k hn hc
    have hres : density.ngpInterpolate gs mass [pt] =
        gs.map (density.ngpPoint gs.headI.CellWidth
          (mass / gs.headI.CellVolume) pt) := by
      simp [density.ngpInterpolate]
    rw [hres, getD_map_of_lt _ _ _ _ default hn]
    constructor
    · intro hin
      rw [density.ngpPoint_of_inWindow _ _ _ _ i j k hc hin]
    · intro hout
      rw [density.ngpPoint_of_not_inWindow _ _ _ _ i j k hc hout]
  have hcw : ([gridC4] : List density.Grid).headI.CellWidth = 1 / 4 := by
    norm_num [gridC4, density.Grid.Init]
  have hcv : ([gridC4] : List density.Grid).headI.CellVolume = 1 / 64 := by
    norm_num [gridC4, density.Grid.Init]
  have hc : density.cellPoints (ptC4 0) (ptC4 1) (ptC4 2)
      ([gridC4] : List density.Grid).headI.CellWidth = (1, 1, 1) := by
    rw [hcw]
    norm_num [density.cellPoints, ptC4]
  have hwin : (([gridC4] : List density.Grid).getD 0 default).G.InWindow
      1 1 1 := by
    norm_num [gridC4, density.Grid.Init, rgeom.Grid.InWindow]
  have hres := (hgen [gridC4] 2 ptC4 0 1 1 1 (by norm_num) hc).1 hwin
  have hidx : (([gridC4] : List density.Grid).getD 0 default).G.Idx 1 1 1 =
      21 := by
    norm_num [gridC4, density.Grid.Init, rgeom.Grid.Idx]
  have hfrac : (2 : ℚ) / ([gridC4] : List density.Grid).headI.CellVolume =
      128 := by
    rw [hcv]; norm_num
  refine ⟨hgen, ?_, ?_⟩
  · rw [hres, hidx, hfrac]
    have hz : (([gridC4] : List density.Grid).getD 0 default).Rhos = fun _ => 0 := rfl
    rw [hz]
    dsimp only
    rw [density.addAt_self]
    norm_num
  · intro m hm
    rw [hres, hidx, hfrac]
    have hz : (([gridC4] : List density.Grid).getD 0 default).Rhos = fun _ => 0 := rfl
    rw [hz]
    dsimp only
    rw [density.addAt_ne _ _ _ hm]

/-- A point far outside the scenario-A grid, whose cell (36,36,36) is
out of the window. -/
def ptC4far : Vec := ![9, 9, 9]

/-- C4 witness: the formula part applied to a concrete out-of-window
point (the grid is unchanged) and the scenario part applied at the
concrete linear index 5. -/
theorem C4_witness :
    ((0 : ℕ) < ([gridC4] : List density.Grid).length ∧
      density.cellPoints (ptC4far 0) (ptC4far 1) (ptC4far 2)
        ([gridC4] : List density.Grid).headI.CellWidth = (36, 36, 36) ∧
      ¬ (([gridC4] : List density.Grid).getD 0 default).G.InWindow
        36 36 36 ∧
      (5 : ℤ) ≠ 21) ∧
    (density.ngpInterpolate [gridC4] 2 [ptC4far]).getD 0 default =
      ([gridC4] : List density.Grid).getD 0 default ∧
    ((density.ngpInterpolate [gridC4] 2 [ptC4]).getD 0 default).Rhos 5 =
      0 :=
  ⟨⟨by norm_num,
    by norm_num [density.cellPoints, ptC4far, gridC4, density.Grid.Init],
    by norm_num [gridC4, density.Grid.Init, rgeom.Grid.InWindow],
    by decide⟩,
   (C4_ngp_formula_and_scenario.1 [gridC4] 2 ptC4far 0 36 36 36
     (by norm_num)
     (by norm_num [density.cellPoints, ptC4far, gridC4,
       density.Grid.Init])).2
     (by norm_num [gridC4, density.Grid.Init, rgeom.Grid.InWindow]),
   C4_ngp_formula_and_scenario.2.2 5 (by decide)⟩

/-- The bounding/target grid of the spec's scenario C: width 2 covering
the whole bounding grid, box width 1, cell width 1/2, zero
densities. -/
def gridC5 : density.Grid :=
  density.Grid.Init 1 1 (fun _ => 0) ⟨2, 0, 0, 0⟩

/-- The point of scenario C, at the box origin. -/
def ptC5 : Vec := ![0, 0, 0]

/-- C5: the periodic neighbor selection of `cic.Interpolate` — for any
grid, `nbrs` maps `-1` to `(BG.Width-1, 0)`, a coordinate with
`i+1 = BG.Width` to `(i, 0)` and any other coordinate to `(i, i+1)` —
and the spec's scenario C: with bounding-grid width 2 and cell width
1/2, the point at the origin shifts to cell `(-1,-1,-1)`, each axis's
neighbor pair is `(1, 0)`, so the eight neighbors are exactly the 8
cells of the 2×2×2 grid and each receives `mass/cell_volume/8 = mass`
(the densities start at zero). -/
theorem C5_cic_nbrs_wrap :
    (∀ g : density.Grid,
      g.nbrs (-1) = (g.BG.Width - 1, 0) ∧
      (∀ i : ℤ, i ≠ -1 → i + 1 = g.BG.Width → g.nbrs i = (i, 0)) ∧
      (∀ i : ℤ, i ≠ -1 → i + 1 ≠ g.BG.Width → g.nbrs i = (i, i + 1))) ∧
    density.cellPoints (ptC5 0 - gridC5.CellWidth / 2)
      (ptC5 1 - gridC5.CellWidth / 2) (ptC5 2 - gridC5.CellWidth / 2)
      gridC5.CellWidth = (-1, -1, -1) ∧
    gridC5.nbrs (-1) = (1, 0) ∧
    (∀ (mass : ℚ) (m : ℤ), 0 ≤ m → m < 8 →
      ((density.cicInterpolate [gridC5] mass [ptC5]).getD 0
        default).Rhos m = mass) := by
  refine ⟨?_, ?_, ?_, ?_⟩
  · intro g
    refine ⟨?_, ?_, ?_⟩
    · unfold density.Grid.nbrs
      rw [if_pos rfl]
    · intro i h1 h2
      unfold density.Grid.nbrs
      rw [if_neg h1, if_pos h2]
    · intro i h1 h2
      unfold density.Grid.nbrs
      rw [if_neg h1, if_neg h2]
  · norm_num [density.cellPoints, ptC5, gridC5, density.Grid.Init]
  · norm_num [density.Grid.nbrs, gridC5, density.Grid.Init]
  · intro mass m h0 h8
    have hres : density.cicInterpolate [gridC5] mass [ptC5] =
        [density.cicDeposit 1 0 1 0 1 0 mass mass mass mass mass mass
          mass mass gridC5] := by
      simp only [density.cicInterpolate, List.foldl_cons, List.foldl_nil,
        List.map_cons, List.map_nil]
      norm_num [gridC5, density.Grid.Init, density.cellPoints,
        density.Grid.nbrs, ptC5]
      ring_nf
    rw [hres]
    simp only [List.getD_cons_zero]
    interval_cases m <;>
      simp [density.cicDeposit, density.Grid.incr, rgeom.Grid.IdxCheck,
        density.addAt, Function.update, gridC5, density.Grid.Init,
        rgeom.Grid.Idx]

/-- C5 witness: the nbrs cases instantiated on the concrete grid of
scenario C (bounding width 2) and the scenario conclusion at the
concrete cell index 3. -/
theorem C5_witness :
    (((1 : ℤ) ≠ -1 ∧ (1 : ℤ) + 1 = gridC5.BG.Width) ∧
      ((0 : ℤ) ≠ -1 ∧ (0 : ℤ) + 1 ≠ gridC5.BG.Width) ∧
      ((0 : ℤ) ≤ 3 ∧ (3 : ℤ) < 8)) ∧
    gridC5.nbrs 1 = (1, 0) ∧
    gridC5.nbrs 0 = (0, 1) ∧
    ((density.cicInterpolate [gridC5] 5 [ptC5]).getD 0 default).Rhos 3 =
      5 :=
  ⟨⟨⟨by decide, by norm_num [gridC5, density.Grid.Init]⟩,
    ⟨by decide, by norm_num [gridC5, density.Grid.Init]⟩,
    ⟨by decide, by decide⟩⟩,
   ((C5_cic_nbrs_wrap.1 gridC5).2.1 1 (by decide)
     (by norm_num [gridC5, density.Grid.Init])),
   ((C5_cic_nbrs_wrap.1 gridC5).2.2 0 (by decide)
     (by norm_num [gridC5, density.Grid.Init])),
   (C5_cic_nbrs_wrap.2.2.2 5 3 (by norm_num) (by norm_num))⟩

/-! ## Machinery for mass-conservation claims (C1) -/

namespace density

/-- Sequential guarded additions, the shape shared by the eight CIC
`incr` calls. -/
def applyAdds (ρ : ℤ → ℚ) (l : List (ℤ × ℚ)) : ℤ → ℚ :=
  l.foldl (fun ρ' p => addAt ρ' p.1 p.2) ρ

lemma applyAdds_not_mem (ρ : ℤ → ℚ) (l : List (ℤ × ℚ)) (m : ℤ)
    (h : m ∉ l.map Prod.fst) : applyAdds ρ l m = ρ m := by
  induction l generalizing ρ with
  | nil => rfl
  | cons q rest ih =>
    simp only [List.map_cons, List.mem_cons, not_or] at h
    show applyAdds (addAt ρ q.1 q.2) rest m = ρ m
    rw [ih (addAt ρ q.1 q.2) h.2]
    exact addAt_ne _ _ _ h.1

lemma applyAdds_mem (ρ : ℤ → ℚ) (l : List (ℤ × ℚ))
    (hnd : (l.map Prod.fst).Nodup) {p : ℤ × ℚ} (hp : p ∈ l) :
    applyAdds ρ l p.1 = ρ p.1 + p.2 := by
  induction l generalizing ρ with
  | nil => cases hp
  | cons q rest ih =>
    rw [List.map_cons, List.nodup_cons] at hnd
    obtain ⟨hq, hrest⟩ := hnd
    rcases List.mem_cons.mp hp with rfl | hmem
    · show applyAdds (addAt ρ p.1 p.2) rest p.1 = ρ p.1 + p.2
      rw [applyAdds_not_mem _ _ _ hq]
      exact addAt_self _ _ _
    · have h1 : p.1 ≠ q.1 := fun he =>
        hq (he ▸ List.mem_map_of_mem Prod.fst hmem)
      show applyAdds (addAt ρ q.1 q.2) rest p.1 = ρ p.1 + p.2
      rw [ih (addAt ρ q.1 q.2) hrest hmem, addAt_ne _ _ _ h1]

lemma base_digits_inj {W a b a' b' : ℤ} (ha0 : 0 ≤ a) (ha1 : a < W)
    (hb0 : 0 ≤ a') (hb1 : a' < W) (he : a + W * b = a' + W * b') :
    a = a' ∧ b = b' := by
  have hW : 0 < W := lt_of_le_of_lt ha0 ha1
  have h1 : a = a' := by
    have e1 : (a + W * b) % W = a % W := Int.add_mul_emod_self_left a W b
    have e2 : (a' + W * b') % W = a' % W :=
      Int.add_mul_emod_self_left a' W b' 
    have := e1.symm.trans (he ▸ e2)
    rwa [Int.emod_eq_of_lt ha0 ha1, Int.emod_eq_of_lt hb0 hb1] at this
  refine ⟨h1, ?_⟩
  have h2 : W * b = W * b' := by
    rw [h1] at he
    linarith
  exact mul_left_cancel₀ (ne_of_gt hW) h2

/-- The linear index is injective on the window: digit uniqueness in
base `Width`. -/
lemma Idx_inj (g : rgeom.Grid) {i j k i' j' k' : ℤ}
    (h1 : g.InWindow i j k) (h2 : g.InWindow i' j' k')
    (he : g.Idx i j k = g.Idx i' j' k') : (i, j, k) = (i', j', k') := by
  obtain ⟨hi0, hi1, hj0, hj1, hk0, hk1⟩ := h1
  obtain ⟨hi0', hi1', hj0', hj1', hk0', hk1'⟩ := h2
  unfold rgeom.Grid.Idx at he
  have he' : (i - g.Origin 0) +
      g.Width * ((j - g.Origin 1) + g.Width * (k - g.Origin 2)) =
      (i' - g.Origin 0) +
      g.Width * ((j' - g.Origin 1) + g.Width * (k' - g.Origin 2)) := by
    linear_combination he
  obtain ⟨hd1, hrest⟩ := base_digits_inj hi0 hi1 hi0' hi1' he'
  obtain ⟨hd2, hd3⟩ := base_digits_inj hj0 hj1 hj0' hj1' hrest
  simp only [Prod.mk.injEq]
  refine ⟨by omega, by omega, by omega⟩

lemma Idx_ne (g : rgeom.Grid) {i j k i' j' k' : ℤ}
    (h1 : g.InWindow i j k) (h2 : g.InWindow i' j' k')
    (hne : ¬ (i = i' ∧ j = j' ∧ k = k')) :
    g.Idx i j k ≠ g.Idx i' j' k' := by
  intro he
  have h3 := Idx_inj g h1 h2 he
  simp only [Prod.mk.injEq] at h3
  exact hne ⟨h3.1, h3.2.1, h3.2.2⟩

/-- Folding guarded `incr` calls over a list of cells and weights. -/
def incrFold (g : Grid) (l : List ((ℤ × ℤ × ℤ) × ℚ)) : Grid :=
  l.foldl (fun g' p => g'.incr p.1.1 p.1.2.1 p.1.2.2 p.2) g

lemma incrFold_all_inWindow (l : List ((ℤ × ℤ × ℤ) × ℚ)) (g : Grid)
    (hw : ∀ p ∈ l, g.G.InWindow p.1.1 p.1.2.1 p.1.2.2) :
    incrFold g l =
      { g with Rhos := applyAdds g.Rhos (l.map fun p =>
          (g.G.Idx p.1.1 p.1.2.1 p.1.2.2, p.2)) } := by
  induction l generalizing g with
  | nil => rfl
  | cons p rest ih =>
    show incrFold (g.incr p.1.1 p.1.2.1 p.1.2.2 p.2) rest = _
    rw [incr_of_inWindow _ _ _ _ _ (hw p (List.mem_cons_self _ _))]
    rw [ih { g with Rhos := (addAt g.Rhos
        (g.G.Idx p.1.1 p.1.2.1 p.1.2.2) p.2) }
      (fun q hq => hw q (List.mem_cons_of_mem _ hq))]
    rfl

lemma incrFold_none_inWindow (l : List ((ℤ × ℤ × ℤ) × ℚ)) (g : Grid)
    (hw : ∀ p ∈ l, ¬ g.G.InWindow p.1.1 p.1.2.1 p.1.2.2) :
    incrFold g l = g := by
  induction l generalizing g with
  | nil => rfl
  | cons p rest ih =>
    show incrFold (g.incr p.1.1 p.1.2.1 p.1.2.2 p.2) rest = _
    rw [incr_of_not_inWindow _ _ _ _ _ (hw p (List.mem_cons_self _ _))]
    exact ih _ (fun q hq => hw q (List.mem_cons_of_mem _ hq))

/-- The eight `incr` calls of the CIC deposit, when all eight neighbor
cells lie in the window, amount to eight sequential additions at the
cells' linear indices. -/
lemma cicDeposit_eq_applyAdds (g : Grid) (i0 i1 j0 j1 k0 k1 : ℤ)
    (o000 o100 o010 o110 o001 o101 o011 o111 : ℚ)
    (h000 : g.G.InWindow i0 j0 k0) (h100 : g.G.InWindow i1 j0 k0)
    (h010 : g.G.InWindow i0 j1 k0) (h110 : g.G.InWindow i1 j1 k0)
    (h001 : g.G.InWindow i0 j0 k1) (h101 : g.G.InWindow i1 j0 k1)
    (h011 : g.G.InWindow i0 j1 k1) (h111 : g.G.InWindow i1 j1 k1) :
    cicDeposit i0 i1 j0 j1 k0 k1 o000 o100 o010 o110 o001 o101 o011 o111
      g =
    { g with Rhos := applyAdds g.Rhos [(g.G.Idx i0 j0 k0, o000),
        (g.G.Idx i1 j0 k0, o100), (g.G.Idx i0 j1 k0, o010),
        (g.G.Idx i1 j1 k0, o110), (g.G.Idx i0 j0 k1, o001),
        (g.G.Idx i1 j0 k1, o101), (g.G.Idx i0 j1 k1, o011),
        (g.G.Idx i1 j1 k1, o111)] } := by
  have hfold : cicDeposit i0 i1 j0 j1 k0 k1 o000 o100 o010 o110 o001
      o101 o011 o111 g = incrFold g
        [((i0, j0, k0), o000), ((i1, j0, k0), o100), ((i0, j1, k0), o010),
         ((i1, j1, k0), o110), ((i0, j0, k1), o001), ((i1, j0, k1), o101),
         ((i0, j1, k1), o011), ((i1, j1, k1), o111)] := rfl
  rw [hfold, incrFold_all_inWindow]
  · rfl
  · intro p hp
    simp only [List.mem_cons, List.not_mem_nil, or_false] at hp
    rcases hp with rfl | rfl | rfl | rfl | rfl | rfl | rfl | rfl
    · exact h000
    · exact h100
    · exact h010
    · exact h110
    · exact h001
    · exact h101
    · exact h011
    · exact h111

/-- When none of the eight neighbor cells lies in the window, the CIC
deposit leaves the grid unchanged. -/
lemma cicDeposit_eq_self (g : Grid) (i0 i1 j0 j1 k0 k1 : ℤ)
    (o000 o100 o010 o110 o001 o101 o011 o111 : ℚ)
    (h000 : ¬ g.G.InWindow i0 j0 k0) (h100 : ¬ g.G.InWindow i1 j0 k0)
    (h010 : ¬ g.G.InWindow i0 j1 k0) (h110 : ¬ g.G.InWindow i1 j1 k0)
    (h001 : ¬ g.G.InWindow i0 j0 k1) (h101 : ¬ g.G.InWindow i1 j0 k1)
    (h011 : ¬ g.G.InWindow i0 j1 k1) (h111 : ¬ g.G.InWindow i1 j1 k1) :
    cicDeposit i0 i1 j0 j1 k0 k1 o000 o100 o010 o110 o001 o101 o011 o111
      g = g := by
  have hfold : cicDeposit i0 i1 j0 j1 k0 k1 o000 o100 o010 o110 o001
      o101 o011 o111 g = incrFold g
        [((i0, j0, k0), o000), ((i1, j0, k0), o100), ((i0, j1, k0), o010),
         ((i1, j1, k0), o110), ((i0, j0, k1), o001), ((i1, j0, k1), o101),
         ((i0, j1, k1), o011), ((i1, j1, k1), o111)] := rfl
  rw [hfold, incrFold_none_inWindow]
  intro p hp
  simp only [List.mem_cons, List.not_mem_nil, or_false] at hp
  rcases hp with rfl | rfl | rfl | rfl | rfl | rfl | rfl | rfl
  · exact h000
  · exact h100
  · exact h010
  · exact h110
  · exact h001
  · exact h101
  · exact h011
  · exact h111

end density

namespace density

lemma map_eq_self_of {α : Type} (l : List α) (f : α → α)
    (h : ∀ a ∈ l, f a = a) : l.map f = l := by
  induction l with
  | nil => rfl
  | cons hd tl ih =>
    rw [List.map_cons, h hd (List.mem_cons_self _ _),
      ih (fun a ha => h a (List.mem_cons_of_mem _ ha))]

/-- `cic.Interpolate` on a single point, unfolded: with the shifted
cell `(i,j,k)`, the neighbor pairs, the fractional offsets and
`frac = mass / gs[0].CellVolume`, every grid receives the eight-fold
trilinear deposit. -/
lemma cicInterpolate_single (gs : List Grid) (mass : ℚ) (pt : Vec)
    (i j k i0 i1 j0 j1 k0 k1 : ℤ) (dx dy dz frac : ℚ)
    (hc : cellPoints (pt 0 - gs.headI.CellWidth / 2)
      (pt 1 - gs.headI.CellWidth / 2) (pt 2 - gs.headI.CellWidth / 2)
      gs.headI.CellWidth = (i, j, k))
    (hni : gs.headI.nbrs i = (i0, i1))
    (hnj : gs.headI.nbrs j = (j0, j1))
    (hnk : gs.headI.nbrs k = (k0, k1))
    (hdx : dx = (pt 0 - gs.headI.CellWidth / 2) / gs.headI.CellWidth -
      (i : ℚ))
    (hdy : dy = (pt 1 - gs.headI.CellWidth / 2) / gs.headI.CellWidth -
      (j : ℚ))
    (hdz : dz = (pt 2 - gs.headI.CellWidth / 2) / gs.headI.CellWidth -
      (k : ℚ))
    (hfr : frac = mass / gs.headI.CellVolume) :
    cicInterpolate gs mass [pt] =
      gs.map (cicDeposit i0 i1 j0 j1 k0 k1
        ((1 - dx) * (1 - dy) * (1 - dz) * frac)
        (dx * (1 - dy) * (1 - dz) * frac)
        ((1 - dx) * dy * (1 - dz) * frac)
        (dx * dy * (1 - dz) * frac)
        ((1 - dx) * (1 - dy) * dz * frac)
        (dx * (1 - dy) * dz * frac)
        ((1 - dx) * dy * dz * frac)
        (dx * dy * dz * frac)) := by
  subst hdx hdy hdz hfr
  simp only [cicInterpolate, List.foldl_cons, List.foldl_nil]
  rw [hc]
  dsimp only
  rw [hni, hnj, hnk]

end density

/-- C1 (amended): mass conservation of the point interpolators. For a
single point whose cell lies inside a target grid's window (all grids
sharing `gs[0]`'s cell volume, as for grids of equal cell width built
by `Grid.Init`), the NGP deposit times the cell volume equals the mass;
for CIC, when the eight neighbor cells are in the window and pairwise
distinct, the sum of the eight increases times the cell volume equals
the mass.  For a single point outside all windows NGP changes nothing,
and CIC changes nothing provided all eight of its neighbor cells are
outside every window (the amendment: a point whose own cell is outside
a window can still deposit into the window through its neighbor cells,
see the counterexample). -/
theorem C1_mass_conservation_amended :
    (∀ (gs : List density.Grid) (mass : ℚ) (pt : Vec) (n : ℕ)
      (i j k : ℤ), n < gs.length →
      density.cellPoints (pt 0) (pt 1) (pt 2) gs.headI.CellWidth =
        (i, j, k) →
      (gs.getD n default).CellVolume = gs.headI.CellVolume →
      gs.headI.CellVolume ≠ 0 →
      (gs.getD n default).G.InWindow i j k →
      (((density.ngpInterpolate gs mass [pt]).getD n default).Rhos
          ((gs.getD n default).G.Idx i j k) -
        (gs.getD n default).Rhos ((gs.getD n default).G.Idx i j k)) *
        (gs.getD n default).CellVolume = mass) ∧
    (∀ (gs : List density.Grid) (mass : ℚ) (pt : Vec) (n : ℕ)
      (i j k i0 i1 j0 j1 k0 k1 : ℤ) (dx dy dz frac : ℚ),
      n < gs.length →
      density.cellPoints (pt 0 - gs.headI.CellWidth / 2)
        (pt 1 - gs.headI.CellWidth / 2) (pt 2 - gs.headI.CellWidth / 2)
        gs.headI.CellWidth = (i, j, k) →
      gs.headI.nbrs i = (i0, i1) →
      gs.headI.nbrs j = (j0, j1) →
      gs.headI.nbrs k = (k0, k1) →
      dx = (pt 0 - gs.headI.CellWidth / 2) / gs.headI.CellWidth -
        (i : ℚ) →
      dy = (pt 1 - gs.headI.CellWidth / 2) / gs.headI.CellWidth -
        (j : ℚ) →
      dz = (pt 2 - gs.headI.CellWidth / 2) / gs.headI.CellWidth -
        (k : ℚ) →
      frac = mass / gs.headI.CellVolume →
      (gs.getD n default).CellVolume = gs.headI.CellVolume →
      gs.headI.CellVolume ≠ 0 →
      i0 ≠ i1 → j0 ≠ j1 → k0 ≠ k1 →
      (gs.getD n default).G.InWindow i0 j0 k0 →
      (gs.getD n default).G.InWindow i1 j0 k0 →
      (gs.getD n default).G.InWindow i0 j1 k0 →
      (gs.getD n default).G.InWindow i1 j1 k0 →
      (gs.getD n default).G.InWindow i0 j0 k1 →
      (gs.getD n default).G.InWindow i1 j0 k1 →
      (gs.getD n default).G.InWindow i0 j1 k1 →
      (gs.getD n default).G.InWindow i1 j1 k1 →
      ((((density.cicInterpolate gs mass [pt]).getD n default).Rhos
          ((gs.getD n default).G.Idx i0 j0 k0) -
         (gs.getD n default).Rhos ((gs.getD n default).G.Idx i0 j0 k0)) +
       (((density.cicInterpolate gs mass [pt]).getD n default).Rhos
          ((gs.getD n default).G.Idx i1 j0 k0) -
         (gs.getD n default).Rhos ((gs.getD n default).G.Idx i1 j0 k0)) +
       (((density.cicInterpolate gs mass [pt]).getD n default).Rhos
          ((gs.getD n default).G.Idx i0 j1 k0) -
         (gs.getD n default).Rhos ((gs.getD n default).G.Idx i0 j1 k0)) +
       (((density.cicInterpolate gs mass [pt]).getD n default).Rhos
          ((gs.getD n default).G.Idx i1 j1 k0) -
         (gs.getD n default).Rhos ((gs.getD n default).G.Idx i1 j1 k0)) +
       (((density.cicInterpolate gs mass [pt]).getD n default).Rhos
          ((gs.getD n default).G.Idx i0 j0 k1) -
         (gs.getD n default).Rhos ((gs.getD n default).G.Idx i0 j0 k1)) +
       (((density.cicInterpolate gs mass [pt]).getD n default).Rhos
          ((gs.getD n default).G.Idx i1 j0 k1) -
         (gs.getD n default).Rhos ((gs.getD n default).G.Idx i1 j0 k1)) +
       (((density.cicInterpolate gs mass [pt]).getD n default).Rhos
          ((gs.getD n default).G.Idx i0 j1 k1) -
         (gs.getD n default).Rhos ((gs.getD n default).G.Idx i0 j1 k1)) +
       (((density.cicInterpolate gs mass [pt]).getD n default).Rhos
          ((gs.getD n default).G.Idx i1 j1 k1) -
         (gs.getD n default).Rhos ((gs.getD n default).G.Idx i1 j1 k1))) *
        (gs.getD n default).CellVolume = mass) ∧
    (∀ (gs : List density.Grid) (mass : ℚ) (pt : Vec) (i j k : ℤ),
      density.cellPoints (pt 0) (pt 1) (pt 2) gs.headI.CellWidth =
        (i, j, k) →
      (∀ g ∈ gs, ¬ g.G.InWindow i j k) →
      density.ngpInterpolate gs mass [pt] = gs) ∧
    (∀ (gs : List density.Grid) (mass : ℚ) (pt : Vec)
      (i j k i0 i1 j0 j1 k0 k1 : ℤ),
      density.cellPoints (pt 0 - gs.headI.CellWidth / 2)
        (pt 1 - gs.headI.CellWidth / 2) (pt 2 - gs.headI.CellWidth / 2)
        gs.headI.CellWidth = (i, j, k) →
      gs.headI.nbrs i = (i0, i1) →
      gs.headI.nbrs j = (j0, j1) →
      gs.headI.nbrs k = (k0, k1) →
      (∀ g ∈ gs,
        ¬ g.G.InWindow i0 j0 k0 ∧ ¬ g.G.InWindow i1 j0 k0 ∧
        ¬ g.G.InWindow i0 j1 k0 ∧ ¬ g.G.InWindow i1 j1 k0 ∧
        ¬ g.G.InWindow i0 j0 k1 ∧ ¬ g.G.InWindow i1 j0 k1 ∧
        ¬ g.G.InWindow i0 j1 k1 ∧ ¬ g.G.InWindow i1 j1 k1) →
      density.cicInterpolate gs mass [pt] = gs) := by
  refine ⟨?_, ?_, ?_, ?_⟩
  · intro gs mass pt n i j k hn hc hcv hnz hwin
    have hres : density.ngpInterpolate gs mass [pt] =
        gs.map (density.ngpPoint gs.headI.CellWidth
          (mass / gs.headI.CellVolume) pt) := by
      simp [density.ngpInterpolate]
    rw [hres, getD_map_of_lt _ _ _ _ default hn,
      density.ngpPoint_of_inWindow _ _ _ _ i j k hc hwin]
    dsimp only
    rw [density.addAt_self]
    have hd : (gs.getD n default).Rhos ((gs.getD n default).G.Idx i j k) +
        mass / gs.headI.CellVolume -
        (gs.getD n default).Rhos ((gs.getD n default).G.Idx i j k) =
        mass / gs.headI.CellVolume := by ring
    rw [hd, hcv]
    exact div_mul_cancel₀ mass hnz
  · intro gs mass pt n i j k i0 i1 j0 j1 k0 k1 dx dy dz frac hn hc hni
      hnj hnk hdx hdy hdz hfr hcv hnz hii hjj hkk h000 h100 h010 h110
      h001 h101 h011 h111
    rw [density.cicInterpolate_single gs mass pt i j k i0 i1 j0 j1 k0 k1
      dx dy dz frac hc hni hnj hnk hdx hdy hdz hfr]
    rw [getD_map_of_lt _ _ _ _ default hn]
    rw [density.cicDeposit_eq_applyAdds _ _ _ _ _ _ _ _ _ _ _ _ _ _ _
      h000 h100 h010 h110 h001 h101 h011 h111]
    dsimp only
    have hnodup : (List.map Prod.fst
        [((gs.getD n default).G.Idx i0 j0 k0,
            (1 - dx) * (1 - dy) * (1 - dz) * frac),
         ((gs.getD n default).G.Idx i1 j0 k0,
            dx * (1 - dy) * (1 - dz) * frac),
         ((gs.getD n default).G.Idx i0 j1 k0,
            (1 - dx) * dy * (1 - dz) * frac),
         ((gs.getD n default).G.Idx i1 j1 k0,
            dx * dy * (1 - dz) * frac),
         ((gs.getD n default).G.Idx i0 j0 k1,
            (1 - dx) * (1 - dy) * dz * frac),
         ((gs.getD n default).G.Idx i1 j0 k1,
            dx * (1 - dy) * dz * frac),
         ((gs.getD n default).G.Idx i0 j1 k1,
            (1 - dx) * dy * dz * frac),
         ((gs.getD n default).G.Idx i1 j1 k1,
            dx * dy * dz * frac)]).Nodup := by
      simp only [List.map_cons, List.map_nil, List.nodup_cons,
        List.mem_cons, List.not_mem_nil, or_false, not_or,
        List.nodup_nil, and_true, not_false_eq_true]
      repeat' apply And.intro
      all_goals
        exact density.Idx_ne _ (by assumption) (by assumption) (by tauto)
    have e000 := @density.applyAdds_mem (gs.getD n default).Rhos _ hnodup
      ((gs.getD n default).G.Idx i0 j0 k0,
        (1 - dx) * (1 - dy) * (1 - dz) * frac) (by simp)
    have e100 := @density.applyAdds_mem (gs.getD n default).Rhos _ hnodup
      ((gs.getD n default).G.Idx i1 j0 k0,
        dx * (1 - dy) * (1 - dz) * frac) (by simp)
    have e010 := @density.applyAdds_mem (gs.getD n default).Rhos _ hnodup
      ((gs.getD n default).G.Idx i0 j1 k0,
        (1 - dx) * dy * (1 - dz) * frac) (by simp)
    have e110 := @density.applyAdds_mem (gs.getD n default).Rhos _ hnodup
      ((gs.getD n default).G.Idx i1 j1 k0, dx * dy * (1 - dz) * frac)
      (by simp)
    have e001 := @density.applyAdds_mem (gs.getD n default).Rhos _ hnodup
      ((gs.getD n default).G.Idx i0 j0 k1,
        (1 - dx) * (1 - dy) * dz * frac) (by simp)
    have e101 := @density.applyAdds_mem (gs.getD n default).Rhos _ hnodup
      ((gs.getD n default).G.Idx i1 j0 k1, dx * (1 - dy) * dz * frac)
      (by simp)
    have e011 := @density.applyAdds_mem (gs.getD n default).Rhos _ hnodup
      ((gs.getD n default).G.Idx i0 j1 k1, (1 - dx) * dy * dz * frac)
      (by simp)
    have e111 := @density.applyAdds_mem (gs.getD n default).Rhos _ hnodup
      ((gs.getD n default).G.Idx i1 j1 k1, dx * dy * dz * frac)
      (by simp)
    rw [e000, e100, e010, e110, e001, e101, e011, e111]
    have hsum : ∀ r000 r100 r010 r110 r001 r101 r011 r111 : ℚ,
        ((r000 + (1 - dx) * (1 - dy) * (1 - dz) * frac - r000) +
         (r100 + dx * (1 - dy) * (1 - dz) * frac - r100) +
         (r010 + (1 - dx) * dy * (1 - dz) * frac - r010) +
         (r110 + dx * dy * (1 - dz) * frac - r110) +
         (r001 + (1 - dx) * (1 - dy) * dz * frac - r001) +
         (r101 + dx * (1 - dy) * dz * frac - r101) +
         (r011 + (1 - dx) * dy * dz * frac - r011) +
         (r111 + dx * dy * dz * frac - r111)) = frac := by
      intro r000 r100 r010 r110 r001 r101 r011 r111
      ring
    rw [hsum, hfr, hcv]
    exact div_mul_cancel₀ mass hnz
  · intro gs mass pt i j k hc hout
    have hres : density.ngpInterpolate gs mass [pt] =
        gs.map (density.ngpPoint gs.headI.CellWidth
          (mass / gs.headI.CellVolume) pt) := by
      simp [density.ngpInterpolate]
    rw [hres]
    exact density.map_eq_self_of _ _ (fun g hg =>
      density.ngpPoint_of_not_inWindow _ _ _ _ i j k hc (hout g hg))
  · intro gs mass pt i j k i0 i1 j0 j1 k0 k1 hc hni hnj hnk hout
    rw [density.cicInterpolate_single gs mass pt i j k i0 i1 j0 j1 k0 k1
      _ _ _ _ hc hni hnj hnk rfl rfl rfl rfl]
    refine density.map_eq_self_of _ _ (fun g hg => ?_)
    obtain ⟨p1, p2, p3, p4, p5, p6, p7, p8⟩ := hout g hg
    exact density.cicDeposit_eq_self _ _ _ _ _ _ _ _ _ _ _ _ _ _ _
      p1 p2 p3 p4 p5 p6 p7 p8

/-- The grid of the C1 counterexample: target window `[0,2)³` inside a
bounding grid of width 4, box width 1 (cell width 1/4), zero
densities. -/
def gridC1 : density.Grid :=
  density.Grid.Init 1 2 (fun _ => 0) ⟨2, 0, 0, 0⟩

/-- The point of the C1 counterexample: its own cell (2,2,2) lies just
outside the target window. -/
def ptC1 : Vec := ![1 / 2, 1 / 2, 1 / 2]

/-- C1 counterexample: a single point whose cell (2,2,2) is outside the
only target grid's window nevertheless changes the grid's densities
under `cic.Interpolate` — the neighbor cell (1,1,1) (linear index 7)
receives 8 — refuting the outside-point clause of the claim as stated
for CIC. -/
theorem C1_counterexample :
    density.cellPoints (ptC1 0) (ptC1 1) (ptC1 2)
      ([gridC1] : List density.Grid).headI.CellWidth = (2, 2, 2) ∧
    (∀ g ∈ ([gridC1] : List density.Grid), ¬ g.G.InWindow 2 2 2) ∧
    gridC1.Rhos 7 = 0 ∧
    ((density.cicInterpolate [gridC1] 1 [ptC1]).getD 0 default).Rhos 7 =
      8 := by
  refine ⟨?_, ?_, rfl, ?_⟩
  · norm_num [density.cellPoints, ptC1, gridC1, density.Grid.Init]
  · intro g hg
    rcases List.mem_singleton.mp hg with rfl
    norm_num [gridC1, density.Grid.Init, rgeom.Grid.InWindow]
  · have hres : density.cicInterpolate [gridC1] 1 [ptC1] =
        [density.cicDeposit 1 2 1 2 1 2 8 8 8 8 8 8 8 8 gridC1] := by
      simp only [density.cicInterpolate, List.foldl_cons, List.foldl_nil,
        List.map_cons, List.map_nil]
      norm_num [gridC1, density.Grid.Init, density.cellPoints,
        density.Grid.nbrs, ptC1]
    rw [hres]
    simp only [List.getD_cons_zero]
    simp [density.cicDeposit, density.Grid.incr, rgeom.Grid.IdxCheck,
      density.addAt, Function.update, gridC1, density.Grid.Init,
      rgeom.Grid.Idx]

/-- An in-window point for the C1 witness, in cell (0,0,0) of the
width-2 grid. -/
def ptC1in : Vec := ![1 / 4, 1 / 4, 1 / 4]

/-- C1 witness: all four parts of the amended theorem applied to the
concrete width-2 grid — NGP and CIC mass conservation for in-window
points, and the no-change clauses for the far point (9,9,9). -/
theorem C1_witness :
    ((0 : ℕ) < ([gridC5] : List density.Grid).length ∧
      gridC5.G.InWindow 0 0 0 ∧ gridC5.G.InWindow 1 1 1 ∧
      (1 : ℤ) ≠ 0 ∧ ¬ gridC5.G.InWindow 18 18 18) ∧
    ((((density.ngpInterpolate [gridC5] 3 [ptC1in]).getD 0
        default).Rhos (gridC5.G.Idx 0 0 0) -
      gridC5.Rhos (gridC5.G.Idx 0 0 0)) * gridC5.CellVolume = 3) ∧
    (((((density.cicInterpolate [gridC5] 5 [ptC5]).getD 0 default).Rhos
          (gridC5.G.Idx 1 1 1) - gridC5.Rhos (gridC5.G.Idx 1 1 1)) +
      ((((density.cicInterpolate [gridC5] 5 [ptC5]).getD 0 default).Rhos
          (gridC5.G.Idx 0 1 1)) - gridC5.Rhos (gridC5.G.Idx 0 1 1)) +
      ((((density.cicInterpolate [gridC5] 5 [ptC5]).getD 0 default).Rhos
          (gridC5.G.Idx 1 0 1)) - gridC5.Rhos (gridC5.G.Idx 1 0 1)) +
      ((((density.cicInterpolate [gridC5] 5 [ptC5]).getD 0 default).Rhos
          (gridC5.G.Idx 0 0 1)) - gridC5.Rhos (gridC5.G.Idx 0 0 1)) +
      ((((density.cicInterpolate [gridC5] 5 [ptC5]).getD 0 default).Rhos
          (gridC5.G.Idx 1 1 0)) - gridC5.Rhos (gridC5.G.Idx 1 1 0)) +
      ((((density.cicInterpolate [gridC5] 5 [ptC5]).getD 0 default).Rhos
          (gridC5.G.Idx 0 1 0)) - gridC5.Rhos (gridC5.G.Idx 0 1 0)) +
      ((((density.cicInterpolate [gridC5] 5 [ptC5]).getD 0 default).Rhos
          (gridC5.G.Idx 1 0 0)) - gridC5.Rhos (gridC5.G.Idx 1 0 0)) +
      ((((density.cicInterpolate [gridC5] 5 [ptC5]).getD 0 default).Rhos
          (gridC5.G.Idx 0 0 0)) - gridC5.Rhos (gridC5.G.Idx 0 0 0))) *
      gridC5.CellVolume = 5) ∧
    density.ngpInterpolate [gridC5] 3 [ptC4far] = [gridC5] ∧
    density.cicInterpolate [gridC5] 5 [ptC4far] = [gridC5] :=
  ⟨⟨by norm_num,
    by norm_num [gridC5, density.Grid.Init, rgeom.Grid.InWindow],
    by norm_num [gridC5, density.Grid.Init, rgeom.Grid.InWindow],
    by decide,
    by norm_num [gridC5, density.Grid.Init, rgeom.Grid.InWindow]⟩,
   C1_mass_conservation_amended.1 [gridC5] 3 ptC1in 0 0 0 0
     (by norm_num)
     (by norm_num [density.cellPoints, ptC1in, gridC5, density.Grid.Init])
     rfl
     (by norm_num [gridC5, density.Grid.Init])
     (by norm_num [gridC5, density.Grid.Init, rgeom.Grid.InWindow]),
   C1_mass_conservation_amended.2.1 [gridC5] 5 ptC5 0 (-1) (-1) (-1)
     1 0 1 0 1 0 (1 / 2) (1 / 2) (1 / 2) 40
     (by norm_num)
     (by norm_num [density.cellPoints, ptC5, gridC5, density.Grid.Init])
     (by norm_num [density.Grid.nbrs, gridC5, density.Grid.Init])
     (by norm_num [density.Grid.nbrs, gridC5, density.Grid.Init])
     (by norm_num [density.Grid.nbrs, gridC5, density.Grid.Init])
     (by norm_num [ptC5, gridC5, density.Grid.Init])
     (by norm_num [ptC5, gridC5, density.Grid.Init])
     (by norm_num [ptC5, gridC5, density.Grid.Init])
     (by norm_num [gridC5, density.Grid.Init])
     rfl
     (by norm_num [gridC5, density.Grid.Init])
     (by decide) (by decide) (by decide)
     (by norm_num [gridC5, density.Grid.Init, rgeom.Grid.InWindow])
     (by norm_num [gridC5, density.Grid.Init, rgeom.Grid.InWindow])
     (by norm_num [gridC5, density.Grid.Init, rgeom.Grid.InWindow])
     (by norm_num [gridC5, density.Grid.Init, rgeom.Grid.InWindow])
     (by norm_num [gridC5, density.Grid.Init, rgeom.Grid.InWindow])
     (by norm_num [gridC5, density.Grid.Init, rgeom.Grid.InWindow])
     (by norm_num [gridC5, density.Grid.Init, rgeom.Grid.InWindow])
     (by norm_num [gridC5, density.Grid.Init, rgeom.Grid.InWindow]),
   C1_mass_conservation_amended.2.2.1 [gridC5] 3 ptC4far 18 18 18
     (by norm_num [density.cellPoints, ptC4far, gridC5,
       density.Grid.Init])
     (by
       intro g hg
       rcases List.mem_singleton.mp hg with rfl
       norm_num [gridC5, density.Grid.Init, rgeom.Grid.InWindow]),
   C1_mass_conservation_amended.2.2.2 [gridC5] 5 ptC4far 17 17 17
     17 18 17 18 17 18
     (by norm_num [density.cellPoints, ptC4far, gridC5,
       density.Grid.Init])
     (by norm_num [density.Grid.nbrs, gridC5, density.Grid.Init])
     (by norm_num [density.Grid.nbrs, gridC5, density.Grid.Init])
     (by norm_num [density.Grid.nbrs, gridC5, density.Grid.Init])
     (by
       intro g hg
       rcases List.mem_singleton.mp hg with rfl
       norm_num [gridC5, density.Grid.Init, rgeom.Grid.InWindow])⟩

/-! ## Claim C3: missing-particle tolerance -/

namespace density

lemma ccStep_miss (intr : CellCenterIntr) (mass : ℚ)
    (st : List Grid × ℕ) (id : ℤ) (dir : Fin 6)
    (hmiss : ∃ v : Fin 4, intr.man.Get
      (rgeom.TetraIdxs.Init intr.table id intr.countWidth 1 dir v) =
      none) :
    ccStep intr mass st id dir = (st.1, st.2 + 1) := by
  obtain ⟨v, hv⟩ := hmiss
  unfold ccStep
  dsimp only
  cases h0 : intr.man.Get
      (rgeom.TetraIdxs.Init intr.table id intr.countWidth 1 dir 0) with
  | none => rfl
  | some p0 =>
    cases h1 : intr.man.Get
        (rgeom.TetraIdxs.Init intr.table id intr.countWidth 1 dir 1) with
    | none => rfl
    | some p1 =>
      cases h2 : intr.man.Get
          (rgeom.TetraIdxs.Init intr.table id intr.countWidth 1 dir 2)
          with
      | none => rfl
      | some p2 =>
        cases h3 : intr.man.Get
            (rgeom.TetraIdxs.Init intr.table id intr.countWidth 1 dir 3)
            with
        | none => rfl
        | some p3 => fin_cases v <;> simp_all

lemma mcStep_miss (intr : McarloIntr) (mass : ℚ) (st : McState)
    (id : ℤ) (dir : Fin 6)
    (hmiss : ∃ v : Fin 4, intr.man.Get
      (rgeom.TetraIdxs.Init intr.table id intr.countWidth 1 dir v) =
      none) :
    mcStep intr mass st id dir = { st with diag := st.diag + 1 } := by
  obtain ⟨v, hv⟩ := hmiss
  unfold mcStep
  dsimp only
  cases h0 : intr.man.Get
      (rgeom.TetraIdxs.Init intr.table id intr.countWidth 1 dir 0) with
  | none => rfl
  | some p0 =>
    cases h1 : intr.man.Get
        (rgeom.TetraIdxs.Init intr.table id intr.countWidth 1 dir 1) with
    | none => rfl
    | some p1 =>
      cases h2 : intr.man.Get
          (rgeom.TetraIdxs.Init intr.table id intr.countWidth 1 dir 2)
          with
      | none => rfl
      | some p2 =>
        cases h3 : intr.man.Get
            (rgeom.TetraIdxs.Init intr.table id intr.countWidth 1 dir 3)
            with
        | none => rfl
        | some p3 => fin_cases v <;> simp_all

lemma sobolStep_miss (intr : SobolIntr) (ptMass : ℚ)
    (st : List Grid × ℕ) (id : ℤ) (dir : Fin 6)
    (hmiss : ∃ v : Fin 4, intr.man.Get
      (rgeom.TetraIdxs.Init intr.table id intr.countWidth 1 dir v) =
      none) :
    sobolStep intr ptMass st id dir = (st.1, st.2 + 1) := by
  obtain ⟨v, hv⟩ := hmiss
  unfold sobolStep
  dsimp only
  cases h0 : intr.man.Get
      (rgeom.TetraIdxs.Init intr.table id intr.countWidth 1 dir 0) with
  | none => rfl
  | some p0 =>
    cases h1 : intr.man.Get
        (rgeom.TetraIdxs.Init intr.table id intr.countWidth 1 dir 1) with
    | none => rfl
    | some p1 =>
      cases h2 : intr.man.Get
          (rgeom.TetraIdxs.Init intr.table id intr.countWidth 1 dir 2)
          with
      | none => rfl
      | some p2 =>
        cases h3 : intr.man.Get
            (rgeom.TetraIdxs.Init intr.table id intr.countWidth 1 dir 3)
            with
        | none => rfl
        | some p3 => fin_cases v <;> simp_all

end density

/-- C3: missing-particle tolerance of the tetra-based interpolators
(CellCenter, MonteCarlo, Sobol).  Whenever any of the four particle ids
of the tetra for `(id, dir)` is absent from the manager, that
`(id, dir)` iteration leaves every grid (and, for MonteCarlo, the
random generator) unchanged and emits exactly one diagnostic; the
interpolate calls are total folds of these per-`(id, dir)` steps over
the ids in caller order and `dir` in 0..5, so the remaining ids and
dirs are still processed and the call completes without error. -/
theorem C3_missing_particle_skip :
    (∀ (intr : density.CellCenterIntr) (mass : ℚ)
      (st : List density.Grid × ℕ) (id : ℤ) (dir : Fin 6),
      (∃ v : Fin 4, intr.man.Get
        (rgeom.TetraIdxs.Init intr.table id intr.countWidth 1 dir v) =
        none) →
      density.ccStep intr mass st id dir = (st.1, st.2 + 1)) ∧
    (∀ (intr : density.CellCenterIntr) (gs : List density.Grid)
      (mass : ℚ) (ids : List ℤ),
      density.cellCenterInterpolate intr gs mass ids =
        ids.foldl (fun st id => (List.finRange 6).foldl
          (fun st dir => density.ccStep intr mass st id dir) st)
          (gs, 0)) ∧
    (∀ (intr : density.McarloIntr) (mass : ℚ) (st : density.McState)
      (id : ℤ) (dir : Fin 6),
      (∃ v : Fin 4, intr.man.Get
        (rgeom.TetraIdxs.Init intr.table id intr.countWidth 1 dir v) =
        none) →
      density.mcStep intr mass st id dir =
        { st with diag := st.diag + 1 }) ∧
    (∀ (intr : density.McarloIntr) (gs : List density.Grid) (mass : ℚ)
      (ids : List ℤ),
      density.mcarloInterpolate intr gs mass ids =
        ids.foldl (fun st id => (List.finRange 6).foldl
          (fun st dir => density.mcStep intr mass st id dir) st)
          { gs := gs, gen := intr.gen, diag := 0 }) ∧
    (∀ (intr : density.SobolIntr) (ptMass : ℚ)
      (st : List density.Grid × ℕ) (id : ℤ) (dir : Fin 6),
      (∃ v : Fin 4, intr.man.Get
        (rgeom.TetraIdxs.Init intr.table id intr.countWidth 1 dir v) =
        none) →
      density.sobolStep intr ptMass st id dir = (st.1, st.2 + 1)) ∧
    (∀ (intr : density.SobolIntr) (gs : List density.Grid) (mass : ℚ)
      (ids : List ℤ),
      density.sobolInterpolate intr gs mass ids =
        ids.foldl (fun st id => (List.finRange 6).foldl
          (fun st dir => density.sobolStep intr
            (mass / (intr.xs.length : ℚ) / 6) st id dir) st)
          (gs, 0)) :=
  ⟨density.ccStep_miss, fun _ _ _ _ => rfl, density.mcStep_miss,
   fun _ _ _ _ => rfl, density.sobolStep_miss, fun _ _ _ _ => rfl⟩

/-- A placeholder tetrahedron-corner table for the C3 witness. -/
def tableC3 : Fin 6 → Fin 4 → Fin 2 × Fin 2 × Fin 2 := fun _ _ => (0, 0, 0)

/-- An empty particle manager: every lookup misses. -/
def manC3 : catalog.ParticleManager := fun _ => none

/-- A CellCenter interpolator over the empty manager. -/
def ccIntrC3 : density.CellCenterIntr :=
  { man := manC3, countWidth := 2, table := tableC3 }

/-- A MonteCarlo interpolator over the empty manager. -/
def mcIntrC3 : density.McarloIntr :=
  { man := manC3, countWidth := 2, steps := 4,
    gen := { f := fun _ => 0, pos := 0 }, flag := .Flat,
    table := tableC3 }

/-- A Sobol interpolator over the empty manager. -/
def sobIntrC3 : density.SobolIntr :=
  { man := manC3, countWidth := 2, xs := [0], ys := [0], zs := [0],
    table := tableC3 }

/-- C3 witness: with an empty manager, one concrete `(id, dir)` step of
each tetra-based strategy leaves the grids unchanged and increments the
diagnostic count. -/
theorem C3_witness :
    (∃ v : Fin 4, ccIntrC3.man.Get (rgeom.TetraIdxs.Init ccIntrC3.table
      0 ccIntrC3.countWidth 1 0 v) = none) ∧
    density.ccStep ccIntrC3 1 ([gridC5], 0) 0 0 = ([gridC5], 1) ∧
    density.mcStep mcIntrC3 1
      { gs := [gridC5], gen := mcIntrC3.gen, diag := 0 } 0 0 =
      { gs := [gridC5], gen := mcIntrC3.gen, diag := 1 } ∧
    density.sobolStep sobIntrC3 1 ([gridC5], 0) 0 0 = ([gridC5], 1) :=
  ⟨⟨0, rfl⟩,
   C3_missing_particle_skip.1 ccIntrC3 1 ([gridC5], 0) 0 0 ⟨0, rfl⟩,
   C3_missing_particle_skip.2.2.1 mcIntrC3 1
     { gs := [gridC5], gen := mcIntrC3.gen, diag := 0 } 0 0 ⟨0, rfl⟩,
   C3_missing_particle_skip.2.2.2.2.1 sobIntrC3 1 ([gridC5], 0) 0 0
     ⟨0, rfl⟩⟩

/-! ## Machinery for the frame claim (C2) -/

namespace density

lemma getD_eq_default {α : Type} [Inhabited α] (l : List α) (n : ℕ)
    (h : l.length ≤ n) : l.getD n default = default := by
  simp [List.getD_eq_getElem?_getD, List.getElem?_eq_none h]

lemma foldl_preserve {σ ι : Type} (Inv : σ → Prop) (step : σ → ι → σ)
    (h : ∀ s i, Inv s → Inv (step s i)) :
    ∀ (l : List ι) (s : σ), Inv s → Inv (l.foldl step s) := by
  intro l
  induction l with
  | nil => exact fun s hs => hs
  | cons hd tl ih => exact fun s hs => ih _ (h s hd hs)

/-- The frame invariant at list position `n` and linear index `m`: the
grid list keeps its length and the grid at `n` keeps its geometry and
its density at `m`. -/
def FrameInv (n : ℕ) (m : ℤ) (L0 : ℕ) (G0 BG0 : rgeom.Grid) (ρ0 : ℚ)
    (gs : List Grid) : Prop :=
  gs.length = L0 ∧ (gs.getD n default).G = G0 ∧
  (gs.getD n default).BG = BG0 ∧ (gs.getD n default).Rhos m = ρ0

lemma FrameInv_map {n : ℕ} {m : ℤ} {L0 : ℕ} {G0 BG0 : rgeom.Grid}
    {ρ0 : ℚ} {gs : List Grid} (F : Grid → Grid)
    (hG : ∀ g, (F g).G = g.G) (hBG : ∀ g, (F g).BG = g.BG)
    (hR : ∀ g, g.G = G0 → g.BG = BG0 → (F g).Rhos m = g.Rhos m)
    (h : FrameInv n m L0 G0 BG0 ρ0 gs) :
    FrameInv n m L0 G0 BG0 ρ0 (gs.map F) := by
  obtain ⟨hl, hg, hbg, hρ⟩ := h
  by_cases hn : n < gs.length
  · refine ⟨by simpa using hl, ?_, ?_, ?_⟩
    · rw [getD_map_of_lt F gs n default default hn, hG, hg]
    · rw [getD_map_of_lt F gs n default default hn, hBG, hbg]
    · rw [getD_map_of_lt F gs n default default hn,
        hR _ hg hbg, hρ]
  · have hge : gs.length ≤ n := not_lt.mp hn
    have h1 : (gs.map F).getD n default = default :=
      getD_eq_default _ _ (by simpa using hge)
    have h2 : gs.getD n default = default := getD_eq_default _ _ hge
    rw [h2] at hg hbg hρ
    exact ⟨by simpa using hl, by rw [h1]; exact hg,
      by rw [h1]; exact hbg, by rw [h1]; exact hρ⟩

lemma ngpFold_G (cw frac : ℚ) (xs : List Vec) (g : Grid) :
    (xs.foldl (fun g' pt => ngpPoint cw frac pt g') g).G = g.G := by
  induction xs generalizing g with
  | nil => rfl
  | cons hd tl ih =>
    rw [List.foldl_cons, ih (ngpPoint cw frac hd g), ngpPoint_G]

lemma ngpFold_BG (cw frac : ℚ) (xs : List Vec) (g : Grid) :
    (xs.foldl (fun g' pt => ngpPoint cw frac pt g') g).BG = g.BG := by
  have hBG : ∀ pt g', (ngpPoint cw frac pt g').BG = g'.BG := by
    intro pt g'
    unfold ngpPoint
    dsimp only
    split <;> rfl
  induction xs generalizing g with
  | nil => rfl
  | cons hd tl ih =>
    rw [List.foldl_cons, ih (ngpPoint cw frac hd g), hBG]

lemma ngpFold_frame (cw frac : ℚ) (xs : List Vec) (g : Grid) (m : ℤ)
    (h : ∀ i j k, g.G.InWindow i j k → g.G.Idx i j k ≠ m) :
    (xs.foldl (fun g' pt => ngpPoint cw frac pt g') g).Rhos m =
      g.Rhos m := by
  induction xs generalizing g with
  | nil => rfl
  | cons hd tl ih =>
    rw [List.foldl_cons]
    have hG := ngpPoint_G cw frac hd g
    rw [ih (ngpPoint cw frac hd g)
      (fun i j k hw => by rw [hG]; exact h i j k (hG ▸ hw))]
    exact ngpPoint_Rhos cw frac hd g m h

lemma incr_BG (g : Grid) (i j k : ℤ) (frac : ℚ) :
    (g.incr i j k frac).BG = g.BG := by
  unfold Grid.incr
  dsimp only
  split <;> rfl

lemma incrFold_G (l : List ((ℤ × ℤ × ℤ) × ℚ)) (g : Grid) :
    (incrFold g l).G = g.G := by
  induction l generalizing g with
  | nil => rfl
  | cons p rest ih =>
    show (incrFold (g.incr p.1.1 p.1.2.1 p.1.2.2 p.2) rest).G = g.G
    rw [ih, incr_G]

lemma incrFold_BG (l : List ((ℤ × ℤ × ℤ) × ℚ)) (g : Grid) :
    (incrFold g l).BG = g.BG := by
  induction l generalizing g with
  | nil => rfl
  | cons p rest ih =>
    show (incrFold (g.incr p.1.1 p.1.2.1 p.1.2.2 p.2) rest).BG = g.BG
    rw [ih, incr_BG]

lemma incrFold_frame (l : List ((ℤ × ℤ × ℤ) × ℚ)) (g : Grid) (m : ℤ)
    (h : ∀ i j k, g.G.InWindow i j k → g.G.Idx i j k ≠ m) :
    (incrFold g l).Rhos m = g.Rhos m := by
  induction l generalizing g with
  | nil => rfl
  | cons p rest ih =>
    show (incrFold (g.incr p.1.1 p.1.2.1 p.1.2.2 p.2) rest).Rhos m =
      g.Rhos m
    have hG := incr_G g p.1.1 p.1.2.1 p.1.2.2 p.2
    rw [ih (g.incr p.1.1 p.1.2.1 p.1.2.2 p.2)
      (fun i j k hw => by rw [hG]; exact h i j k (hG ▸ hw))]
    exact incr_Rhos_frame g _ _ _ _ m h

lemma cicDeposit_G (i0 i1 j0 j1 k0 k1 : ℤ)
    (o000 o100 o010 o110 o001 o101 o011 o111 : ℚ) (g : Grid) :
    (cicDeposit i0 i1 j0 j1 k0 k1 o000 o100 o010 o110 o001 o101 o011
      o111 g).G = g.G := by
  have h8 : cicDeposit i0 i1 j0 j1 k0 k1 o000 o100 o010 o110 o001 o101
      o011 o111 g = incrFold g
        [((i0, j0, k0), o000), ((i1, j0, k0), o100), ((i0, j1, k0), o010),
         ((i1, j1, k0), o110), ((i0, j0, k1), o001), ((i1, j0, k1), o101),
         ((i0, j1, k1), o011), ((i1, j1, k1), o111)] := rfl
  rw [h8]
  exact incrFold_G _ g

lemma cicDeposit_BG (i0 i1 j0 j1 k0 k1 : ℤ)
    (o000 o100 o010 o110 o001 o101 o011 o111 : ℚ) (g : Grid) :
    (cicDeposit i0 i1 j0 j1 k0 k1 o000 o100 o010 o110 o001 o101 o011
      o111 g).BG = g.BG := by
  have h8 : cicDeposit i0 i1 j0 j1 k0 k1 o000 o100 o010 o110 o001 o101
      o011 o111 g = incrFold g
        [((i0, j0, k0), o000), ((i1, j0, k0), o100), ((i0, j1, k0), o010),
         ((i1, j1, k0), o110), ((i0, j0, k1), o001), ((i1, j0, k1), o101),
         ((i0, j1, k1), o011), ((i1, j1, k1), o111)] := rfl
  rw [h8]
  exact incrFold_BG _ g

lemma cicDeposit_frame (i0 i1 j0 j1 k0 k1 : ℤ)
    (o000 o100 o010 o110 o001 o101 o011 o111 : ℚ) (g : Grid) (m : ℤ)
    (h : ∀ i j k, g.G.InWindow i j k → g.G.Idx i j k ≠ m) :
    (cicDeposit i0 i1 j0 j1 k0 k1 o000 o100 o010 o110 o001 o101 o011
      o111 g).Rhos m = g.Rhos m := by
  have h8 : cicDeposit i0 i1 j0 j1 k0 k1 o000 o100 o010 o110 o001 o101
      o011 o111 g = incrFold g
        [((i0, j0, k0), o000), ((i1, j0, k0), o100), ((i0, j1, k0), o010),
         ((i1, j1, k0), o110), ((i0, j0, k1), o001), ((i1, j0, k1), o101),
         ((i0, j1, k1), o011), ((i1, j1, k1), o111)] := rfl
  rw [h8]
  exact incrFold_frame _ g m h

lemma foldl_point_frame {ι : Type} (l : List ι)
    (step : (ℤ → ℚ) → ι → (ℤ → ℚ)) (m : ℤ)
    (h : ∀ ρ i, i ∈ l → step ρ i m = ρ m) :
    ∀ ρ, (l.foldl step ρ) m = ρ m := by
  induction l with
  | nil => intro ρ; rfl
  | cons hd tl ih =>
    intro ρ
    rw [List.foldl_cons,
      ih (fun ρ' i hi => h ρ' i (List.mem_cons_of_mem _ hi))]
    exact h ρ hd (List.mem_cons_self _ _)

lemma mem_intRange {x lo hi : ℤ} (h : x ∈ intRange lo hi) :
    lo ≤ x ∧ x ≤ hi := by
  unfold intRange at h
  rw [List.mem_map] at h
  obtain ⟨a, ha, rfl⟩ := h
  have ha' := List.mem_range.mp ha
  constructor <;> omega

lemma le_maxInt_right (x y : ℤ) : y ≤ maxInt x y := by
  unfold maxInt
  split <;> omega

lemma minInt_le_right (x y : ℤ) : minInt x y ≤ y := by
  unfold minInt
  split <;> omega

end density

namespace density

lemma cellCenterIntrTetra_G (tet : rgeom.Tetra) (mass : ℚ) (g : Grid)
    (cb : rgeom.CellBounds) :
    (cellCenterIntrTetra tet mass g cb).G = g.G := rfl

lemma cellCenterIntrTetra_BG (tet : rgeom.Tetra) (mass : ℚ) (g : Grid)
    (cb : rgeom.CellBounds) :
    (cellCenterIntrTetra tet mass g cb).BG = g.BG := rfl

lemma cellCenterIntrTetra_frame (tet : rgeom.Tetra) (mass : ℚ)
    (g : Grid) (cb : rgeom.CellBounds) (m : ℤ)
    (hO0 : 0 ≤ g.G.Origin 0) (hO1 : 0 ≤ g.G.Origin 1)
    (hO2 : 0 ≤ g.G.Origin 2)
    (hW0 : g.G.Origin 0 + g.G.Width ≤ g.BG.Width)
    (hW1 : g.G.Origin 1 + g.G.Width ≤ g.BG.Width)
    (hW2 : g.G.Origin 2 + g.G.Width ≤ g.BG.Width)
    (havoid : ∀ i j k, g.G.InWindow i j k → g.G.Idx i j k ≠ m) :
    (cellCenterIntrTetra tet mass g cb).Rhos m = g.Rhos m := by
  unfold cellCenterIntrTetra
  dsimp only
  apply foldl_point_frame
  intro ρz z hz
  apply foldl_point_frame
  intro ρy y hy
  apply foldl_point_frame
  intro ρx x hx
  dsimp only
  obtain ⟨hx1, hx2⟩ := mem_intRange hx
  obtain ⟨hy1, hy2⟩ := mem_intRange hy
  obtain ⟨hz1, hz2⟩ := mem_intRange hz
  have hxlo : g.G.Origin 0 ≤ x := le_trans (le_maxInt_right _ _) hx1
  have hxhi : x ≤ g.G.Origin 0 + g.G.Width - 1 :=
    le_trans hx2 (minInt_le_right _ _)
  have hylo : g.G.Origin 1 ≤ y := le_trans (le_maxInt_right _ _) hy1
  have hyhi : y ≤ g.G.Origin 1 + g.G.Width - 1 :=
    le_trans hy2 (minInt_le_right _ _)
  have hzlo : g.G.Origin 2 ≤ z := le_trans (le_maxInt_right _ _) hz1
  have hzhi : z ≤ g.G.Origin 2 + g.G.Width - 1 :=
    le_trans hz2 (minInt_le_right _ _)
  unfold rgeom.Grid.Wrap
  dsimp only
  have hwx : x % g.BG.Width = x :=
    Int.emod_eq_of_lt (by omega) (by omega)
  have hwy : y % g.BG.Width = y :=
    Int.emod_eq_of_lt (by omega) (by omega)
  have hwz : z % g.BG.Width = z :=
    Int.emod_eq_of_lt (by omega) (by omega)
  rw [hwx, hwy, hwz]
  split
  · exact addAt_ne _ _ _
      (Ne.symm (havoid x y z
        ⟨by omega, by omega, by omega, by omega, by omega, by omega⟩))
  · rfl

lemma patchFiltered_map (p : Grid → Bool) (f : Grid → Grid)
    (gs : List Grid) :
    patchFiltered p gs ((gs.filter p).map f) =
      gs.map (fun g => if p g then f g else g) := by
  induction gs with
  | nil => rfl
  | cons g rest ih =>
    by_cases hp : p g
    · rw [List.filter_cons_of_pos hp, List.map_cons]
      show (if p g then (f g :: (rest.filter p).map f).headI ::
          patchFiltered p rest (f g :: (rest.filter p).map f).tail
        else g :: patchFiltered p rest (f g :: (rest.filter p).map f)) =
        _
      rw [if_pos hp]
      rw [List.map_cons, if_pos hp]
      exact congrArg _ ih
    · rw [List.filter_cons_of_neg hp]
      show (if p g then ((rest.filter p).map f).headI ::
          patchFiltered p rest ((rest.filter p).map f).tail
        else g :: patchFiltered p rest ((rest.filter p).map f)) = _
      rw [if_neg hp, List.map_cons, if_neg hp]
      exact congrArg _ ih

end density

namespace density

lemma ccStep_FrameInv (intr : CellCenterIntr) (mass : ℚ) (id : ℤ)
    (dir : Fin 6) {n : ℕ} {m : ℤ} {L0 : ℕ} {G0 BG0 : rgeom.Grid}
    {ρ0 : ℚ}
    (hO0 : 0 ≤ G0.Origin 0) (hO1 : 0 ≤ G0.Origin 1)
    (hO2 : 0 ≤ G0.Origin 2)
    (hW0 : G0.Origin 0 + G0.Width ≤ BG0.Width)
    (hW1 : G0.Origin 1 + G0.Width ≤ BG0.Width)
    (hW2 : G0.Origin 2 + G0.Width ≤ BG0.Width)
    (havoid : ∀ i j k, G0.InWindow i j k → G0.Idx i j k ≠ m)
    (st : List Grid × ℕ) (h : FrameInv n m L0 G0 BG0 ρ0 st.1) :
    FrameInv n m L0 G0 BG0 ρ0 (ccStep intr mass st id dir).1 := by
  unfold ccStep
  dsimp only
  cases intr.man.Get (rgeom.TetraIdxs.Init intr.table id intr.countWidth
      1 dir 0) with
  | none => exact h
  | some p0 =>
    cases intr.man.Get (rgeom.TetraIdxs.Init intr.table id
        intr.countWidth 1 dir 1) with
    | none => exact h
    | some p1 =>
      cases intr.man.Get (rgeom.TetraIdxs.Init intr.table id
          intr.countWidth 1 dir 2) with
      | none => exact h
      | some p2 =>
        cases intr.man.Get (rgeom.TetraIdxs.Init intr.table id
            intr.countWidth 1 dir 3) with
        | none => exact h
        | some p3 =>
          refine FrameInv_map _ ?_ ?_ ?_ h
          · intro g
            split
            · exact cellCenterIntrTetra_G _ _ _ _
            · rfl
          · intro g
            split
            · exact cellCenterIntrTetra_BG _ _ _ _
            · rfl
          · intro g hgG hgBG
            split
            · refine cellCenterIntrTetra_frame _ _ _ _ _ ?_ ?_ ?_ ?_ ?_
                ?_ ?_
              · rw [hgG]; exact hO0
              · rw [hgG]; exact hO1
              · rw [hgG]; exact hO2
              · rw [hgG, hgBG]; exact hW0
              · rw [hgG, hgBG]; exact hW1
              · rw [hgG, hgBG]; exact hW2
              · intro i j k hw
                rw [hgG]
                exact havoid i j k (hgG ▸ hw)
            · rfl

lemma mcStep_FrameInv (intr : McarloIntr) (mass : ℚ) (id : ℤ)
    (dir : Fin 6) {n : ℕ} {m : ℤ} {L0 : ℕ} {G0 BG0 : rgeom.Grid}
    {ρ0 : ℚ}
    (havoid : ∀ i j k, G0.InWindow i j k → G0.Idx i j k ≠ m)
    (st : McState) (h : FrameInv n m L0 G0 BG0 ρ0 st.gs) :
    FrameInv n m L0 G0 BG0 ρ0 (mcStep intr mass st id dir).gs := by
  unfold mcStep
  dsimp only
  cases intr.man.Get (rgeom.TetraIdxs.Init intr.table id intr.countWidth
      1 dir 0) with
  | none => exact h
  | some p0 =>
    cases intr.man.Get (rgeom.TetraIdxs.Init intr.table id
        intr.countWidth 1 dir 1) with
    | none => exact h
    | some p1 =>
      cases intr.man.Get (rgeom.TetraIdxs.Init intr.table id
          intr.countWidth 1 dir 2) with
      | none => exact h
      | some p2 =>
        cases intr.man.Get (rgeom.TetraIdxs.Init intr.table id
            intr.countWidth 1 dir 3) with
        | none => exact h
        | some p3 =>
          rw [apply_ite McState.gs]
          split
          · exact h
          · dsimp only
            rw [ngpInterpolate_eq_map, patchFiltered_map]
            refine FrameInv_map _ ?_ ?_ ?_ h
            · intro g
              split
              · exact ngpFold_G _ _ _ _
              · rfl
            · intro g
              split
              · exact ngpFold_BG _ _ _ _
              · rfl
            · intro g hgG hgBG
              split
              · refine ngpFold_frame _ _ _ _ _ ?_
                intro i j k hw
                rw [hgG]
                exact havoid i j k (hgG ▸ hw)
              · rfl

lemma sobolStep_FrameInv (intr : SobolIntr) (ptMass : ℚ) (id : ℤ)
    (dir : Fin 6) {n : ℕ} {m : ℤ} {L0 : ℕ} {G0 BG0 : rgeom.Grid}
    {ρ0 : ℚ}
    (havoid : ∀ i j k, G0.InWindow i j k → G0.Idx i j k ≠ m)
    (st : List Grid × ℕ) (h : FrameInv n m L0 G0 BG0 ρ0 st.1) :
    FrameInv n m L0 G0 BG0 ρ0 (sobolStep intr ptMass st id dir).1 := by
  unfold sobolStep
  dsimp only
  cases intr.man.Get (rgeom.TetraIdxs.Init intr.table id intr.countWidth
      1 dir 0) with
  | none => exact h
  | some p0 =>
    cases intr.man.Get (rgeom.TetraIdxs.Init intr.table id
        intr.countWidth 1 dir 1) with
    | none => exact h
    | some p1 =>
      cases intr.man.Get (rgeom.TetraIdxs.Init intr.table id
          intr.countWidth 1 dir 2) with
      | none => exact h
      | some p2 =>
        cases intr.man.Get (rgeom.TetraIdxs.Init intr.table id
            intr.countWidth 1 dir 3) with
        | none => exact h
        | some p3 =>
          dsimp only
          rw [ngpInterpolate_eq_map, patchFiltered_map]
          refine FrameInv_map _ ?_ ?_ ?_ h
          · intro g
            split
            · exact ngpFold_G _ _ _ _
            · rfl
          · intro g
            split
            · exact ngpFold_BG _ _ _ _
            · rfl
          · intro g hgG hgBG
            split
            · refine ngpFold_frame _ _ _ _ _ ?_
              intro i j k hw
              rw [hgG]
              exact havoid i j k (hgG ▸ hw)
            · rfl

end density

namespace density

lemma ngpPoint_BG (cw frac : ℚ) (pt : Vec) (g : Grid) :
    (ngpPoint cw frac pt g).BG = g.BG := by
  unfold ngpPoint
  dsimp only
  split <;> rfl

end density

/-- C2: frame property of deposition.  For every grid in the list and
every linear index `m` that is not the index of any cell of that grid's
sub-window, the stored density at `m` is unchanged by any Interpolate
call of any of the five strategies.  Out-of-window cells are silently
dropped: NGP/CIC writes go through the `IdxCheck` guard of `incr`, the
CellCenter inner loop clamps its cell range to the sub-window before
writing through `Idx` (for which the conjunct assumes the `Grid.Init`
invariants `0 ≤ origin` and `origin + width ≤ BG.width` per axis), and
MonteCarlo/Sobol forward to NGP. -/
theorem C2_frame_property :
    (∀ (gs : List density.Grid) (mass : ℚ) (xs : List Vec) (n : ℕ)
      (m : ℤ),
      (∀ i j k, (gs.getD n default).G.InWindow i j k →
        (gs.getD n default).G.Idx i j k ≠ m) →
      ((density.ngpInterpolate gs mass xs).getD n default).Rhos m =
        (gs.getD n default).Rhos m) ∧
    (∀ (gs : List density.Grid) (mass : ℚ) (xs : List Vec) (n : ℕ)
      (m : ℤ),
      (∀ i j k, (gs.getD n default).G.InWindow i j k →
        (gs.getD n default).G.Idx i j k ≠ m) →
      ((density.cicInterpolate gs mass xs).getD n default).Rhos m =
        (gs.getD n default).Rhos m) ∧
    (∀ (intr : density.CellCenterIntr) (gs : List density.Grid)
      (mass : ℚ) (ids : List ℤ) (n : ℕ) (m : ℤ),
      0 ≤ (gs.getD n default).G.Origin 0 →
      0 ≤ (gs.getD n default).G.Origin 1 →
      0 ≤ (gs.getD n default).G.Origin 2 →
      (gs.getD n default).G.Origin 0 + (gs.getD n default).G.Width ≤
        (gs.getD n default).BG.Width →
      (gs.getD n default).G.Origin 1 + (gs.getD n default).G.Width ≤
        (gs.getD n default).BG.Width →
      (gs.getD n default).G.Origin 2 + (gs.getD n default).G.Width ≤
        (gs.getD n default).BG.Width →
      (∀ i j k, (gs.getD n default).G.InWindow i j k →
        (gs.getD n default).G.Idx i j k ≠ m) →
      (((density.cellCenterInterpolate intr gs mass ids).1.getD n
        default).Rhos m) = (gs.getD n default).Rhos m) ∧
    (∀ (intr : density.McarloIntr) (gs : List density.Grid) (mass : ℚ)
      (ids : List ℤ) (n : ℕ) (m : ℤ),
      (∀ i j k, (gs.getD n default).G.InWindow i j k →
        (gs.getD n default).G.Idx i j k ≠ m) →
      (((density.mcarloInterpolate intr gs mass ids).gs.getD n
        default).Rhos m) = (gs.getD n default).Rhos m) ∧
    (∀ (intr : density.SobolIntr) (gs : List density.Grid) (mass : ℚ)
      (ids : List ℤ) (n : ℕ) (m : ℤ),
      (∀ i j k, (gs.getD n default).G.InWindow i j k →
        (gs.getD n default).G.Idx i j k ≠ m) →
      (((density.sobolInterpolate intr gs mass ids).1.getD n
        default).Rhos m) = (gs.getD n default).Rhos m) := by
  refine ⟨?_, ?_, ?_, ?_, ?_⟩
  · intro gs mass xs n m havoid
    have hInv : density.FrameInv n m gs.length (gs.getD n default).G
        (gs.getD n default).BG ((gs.getD n default).Rhos m)
        (density.ngpInterpolate gs mass xs) := by
      unfold density.ngpInterpolate
      dsimp only
      refine density.foldl_preserve _ _ ?_ xs gs ⟨rfl, rfl, rfl, rfl⟩
      intro s pt hs
      refine density.FrameInv_map _ ?_ ?_ ?_ hs
      · exact fun g => density.ngpPoint_G _ _ _ _
      · exact fun g => density.ngpPoint_BG _ _ _ _
      · intro g hgG hgBG
        refine density.ngpPoint_Rhos _ _ _ _ _ ?_
        intro i j k hw
        rw [hgG]
        exact havoid i j k (hgG ▸ hw)
    exact hInv.2.2.2
  · intro gs mass xs n m havoid
    have hInv : density.FrameInv n m gs.length (gs.getD n default).G
        (gs.getD n default).BG ((gs.getD n default).Rhos m)
        (density.cicInterpolate gs mass xs) := by
      unfold density.cicInterpolate
      dsimp only
      refine density.foldl_preserve _ _ ?_ xs gs ⟨rfl, rfl, rfl, rfl⟩
      intro s pt hs
      dsimp only
      refine density.FrameInv_map _ ?_ ?_ ?_ hs
      · exact fun g => density.cicDeposit_G _ _ _ _ _ _ _ _ _ _ _ _ _ _
          g
      · exact fun g => density.cicDeposit_BG _ _ _ _ _ _ _ _ _ _ _ _ _ _
          g
      · intro g hgG hgBG
        refine density.cicDeposit_frame _ _ _ _ _ _ _ _ _ _ _ _ _ _ g _
          ?_
        intro i j k hw
        rw [hgG]
        exact havoid i j k (hgG ▸ hw)
    exact hInv.2.2.2
  · intro intr gs mass ids n m hO0 hO1 hO2 hW0 hW1 hW2 havoid
    have hInv : density.FrameInv n m gs.length (gs.getD n default).G
        (gs.getD n default).BG ((gs.getD n default).Rhos m)
        (density.cellCenterInterpolate intr gs mass ids).1 := by
      unfold density.cellCenterInterpolate
      refine density.foldl_preserve
        (fun (st : List density.Grid × ℕ) =>
          density.FrameInv n m gs.length (gs.getD n default).G
            (gs.getD n default).BG ((gs.getD n default).Rhos m) st.1) _
        ?_ ids (gs, 0) ⟨rfl, rfl, rfl, rfl⟩
      intro st id hst
      refine density.foldl_preserve
        (fun (st : List density.Grid × ℕ) =>
          density.FrameInv n m gs.length (gs.getD n default).G
            (gs.getD n default).BG ((gs.getD n default).Rhos m) st.1) _
        ?_ (List.finRange 6) st hst
      intro st' dir hst'
      exact density.ccStep_FrameInv intr mass id dir hO0 hO1 hO2 hW0 hW1
        hW2 havoid st' hst'
    exact hInv.2.2.2
  · intro intr gs mass ids n m havoid
    have hInv : density.FrameInv n m gs.length (gs.getD n default).G
        (gs.getD n default).BG ((gs.getD n default).Rhos m)
        (density.mcarloInterpolate intr gs mass ids).gs := by
      unfold density.mcarloInterpolate
      refine density.foldl_preserve
        (fun (st : density.McState) =>
          density.FrameInv n m gs.length (gs.getD n default).G
            (gs.getD n default).BG ((gs.getD n default).Rhos m) st.gs) _
        ?_ ids { gs := gs, gen := intr.gen, diag := 0 }
        ⟨rfl, rfl, rfl, rfl⟩
      intro st id hst
      refine density.foldl_preserve
        (fun (st : density.McState) =>
          density.FrameInv n m gs.length (gs.getD n default).G
            (gs.getD n default).BG ((gs.getD n default).Rhos m) st.gs) _
        ?_ (List.finRange 6) st hst
      intro st' dir hst'
      exact density.mcStep_FrameInv intr mass id dir havoid st' hst'
    exact hInv.2.2.2
  · intro intr gs mass ids n m havoid
    have hInv : density.FrameInv n m gs.length (gs.getD n default).G
        (gs.getD n default).BG ((gs.getD n default).Rhos m)
        (density.sobolInterpolate intr gs mass ids).1 := by
      unfold density.sobolInterpolate
      dsimp only
      refine density.foldl_preserve
        (fun (st : List density.Grid × ℕ) =>
          density.FrameInv n m gs.length (gs.getD n default).G
            (gs.getD n default).BG ((gs.getD n default).Rhos m) st.1) _
        ?_ ids (gs, 0) ⟨rfl, rfl, rfl, rfl⟩
      intro st id hst
      refine density.foldl_preserve
        (fun (st : List density.Grid × ℕ) =>
          density.FrameInv n m gs.length (gs.getD n default).G
            (gs.getD n default).BG ((gs.getD n default).Rhos m) st.1) _
        ?_ (List.finRange 6) st hst
      intro st' dir hst'
      exact density.sobolStep_FrameInv intr _ id dir havoid st' hst'
    exact hInv.2.2.2

/-- C2 witness: the frame property of each of the five strategies at
the concrete width-2 grid, for the linear index -1, which no window
cell maps to. -/
theorem C2_witness :
    (∀ i j k : ℤ, gridC5.G.InWindow i j k → gridC5.G.Idx i j k ≠ -1) ∧
    ((density.ngpInterpolate [gridC5] 1 [ptC5]).getD 0 default).Rhos
      (-1) = gridC5.Rhos (-1) ∧
    ((density.cicInterpolate [gridC5] 1 [ptC5]).getD 0 default).Rhos
      (-1) = gridC5.Rhos (-1) ∧
    ((density.cellCenterInterpolate ccIntrC3 [gridC5] 1 [0]).1.getD 0
      default).Rhos (-1) = gridC5.Rhos (-1) ∧
    ((density.mcarloInterpolate mcIntrC3 [gridC5] 1 [0]).gs.getD 0
      default).Rhos (-1) = gridC5.Rhos (-1) ∧
    ((density.sobolInterpolate sobIntrC3 [gridC5] 1 [0]).1.getD 0
      default).Rhos (-1) = gridC5.Rhos (-1) := by
  have havoid : ∀ i j k : ℤ, gridC5.G.InWindow i j k →
      gridC5.G.Idx i j k ≠ -1 := by
    intro i j k hw
    unfold rgeom.Grid.InWindow at hw
    unfold rgeom.Grid.Idx
    norm_num [gridC5, density.Grid.Init] at hw ⊢
    omega
  refine ⟨havoid,
    C2_frame_property.1 [gridC5] 1 [ptC5] 0 (-1) havoid,
    C2_frame_property.2.1 [gridC5] 1 [ptC5] 0 (-1) havoid,
    C2_frame_property.2.2.1 ccIntrC3 [gridC5] 1 [0] 0 (-1)
      (by norm_num [gridC5, density.Grid.Init])
      (by norm_num [gridC5, density.Grid.Init])
      (by norm_num [gridC5, density.Grid.Init])
      (by norm_num [gridC5, density.Grid.Init])
      (by norm_num [gridC5, density.Grid.Init])
      (by norm_num [gridC5, density.Grid.Init]) havoid,
    C2_frame_property.2.2.2.1 mcIntrC3 [gridC5] 1 [0] 0 (-1) havoid,
    C2_frame_property.2.2.2.2 sobIntrC3 [gridC5] 1 [0] 0 (-1) havoid⟩

/-- C7: MonteCarlo point selection.  The `Flat` selector always returns
the configured steps; `PropToCells` returns 0 for a tetra whose minimum
edge length is below 0.251 (compared on squared lengths) and the
configured steps otherwise.  A tetra whose selector returns 0 deposits
nothing (the step leaves the state unchanged, before any generator
draw); otherwise the step samples exactly `pts` points from the
generator and forwards them with per-point mass `mass/pts/6` to the NGP
sub-interpolator against exactly the grids whose intersect test against
the tetra's cell bounds succeeded, emitting no diagnostic. -/
theorem C7_mcarlo_point_selection :
    (∀ (steps : ℕ) (tet : rgeom.Tetra) (cb : rgeom.CellBounds),
      density.pointSelect .Flat steps tet cb = steps) ∧
    (∀ (steps : ℕ) (tet : rgeom.Tetra) (cb : rgeom.CellBounds),
      (tet.MinMaxLegSq.1 < (251 / 1000 : ℚ) ^ 2 →
        density.pointSelect .PropToCells steps tet cb = 0) ∧
      ((251 / 1000 : ℚ) ^ 2 ≤ tet.MinMaxLegSq.1 →
        density.pointSelect .PropToCells steps tet cb = steps)) ∧
    (∀ (intr : density.McarloIntr) (mass : ℚ) (st : density.McState)
      (id : ℤ) (dir : Fin 6) (p0 p1 p2 p3 : catalog.Particle)
      (T : rgeom.Tetra),
      intr.man.Get (rgeom.TetraIdxs.Init intr.table id intr.countWidth
        1 dir 0) = some p0 →
      intr.man.Get (rgeom.TetraIdxs.Init intr.table id intr.countWidth
        1 dir 1) = some p1 →
      intr.man.Get (rgeom.TetraIdxs.Init intr.table id intr.countWidth
        1 dir 2) = some p2 →
      intr.man.Get (rgeom.TetraIdxs.Init intr.table id intr.countWidth
        1 dir 3) = some p3 →
      T = rgeom.Tetra.Init p0.Xs p1.Xs p2.Xs p3.Xs st.gs.headI.BoxWidth →
      intr.flag = .PropToCells →
      T.MinMaxLegSq.1 < (251 / 1000 : ℚ) ^ 2 →
      density.mcStep intr mass st id dir = st) ∧
    (∀ (intr : density.McarloIntr) (mass : ℚ) (st : density.McState)
      (id : ℤ) (dir : Fin 6) (p0 p1 p2 p3 : catalog.Particle)
      (T : rgeom.Tetra) (CB : rgeom.CellBounds) (pts : ℕ),
      intr.man.Get (rgeom.TetraIdxs.Init intr.table id intr.countWidth
        1 dir 0) = some p0 →
      intr.man.Get (rgeom.TetraIdxs.Init intr.table id intr.countWidth
        1 dir 1) = some p1 →
      intr.man.Get (rgeom.TetraIdxs.Init intr.table id intr.countWidth
        1 dir 2) = some p2 →
      intr.man.Get (rgeom.TetraIdxs.Init intr.table id intr.countWidth
        1 dir 3) = some p3 →
      T = rgeom.Tetra.Init p0.Xs p1.Xs p2.Xs p3.Xs st.gs.headI.BoxWidth →
      CB = T.CellBoundsAt st.gs.headI.CellWidth →
      pts = density.pointSelect intr.flag intr.steps T CB →
      pts ≠ 0 →
      (density.mcStep intr mass st id dir).gs =
        density.patchFiltered (density.intersectTest CB) st.gs
          (density.ngpInterpolate
            (st.gs.filter (density.intersectTest CB))
            (mass / (pts : ℚ) / 6) (T.RandomSample st.gen pts).1) ∧
      (density.mcStep intr mass st id dir).gen =
        (T.RandomSample st.gen pts).2 ∧
      (density.mcStep intr mass st id dir).diag = st.diag ∧
      (T.RandomSample st.gen pts).1.length = pts) := by
  refine ⟨fun _ _ _ => rfl, ?_, ?_, ?_⟩
  · intro steps tet cb
    constructor
    · intro h
      show density.propToCell steps tet cb = 0
      unfold density.propToCell
      rw [if_neg (not_le.mpr h)]
    · intro h
      show density.propToCell steps tet cb = steps
      unfold density.propToCell
      rw [if_pos h]
  · intro intr mass st id dir p0 p1 p2 p3 T h0 h1 h2 h3 hT hflag hmin
    unfold density.mcStep
    dsimp only
    rw [h0, h1, h2, h3]
    dsimp only
    rw [hflag]
    have hz : density.pointSelect .PropToCells intr.steps
        (rgeom.Tetra.Init p0.Xs p1.Xs p2.Xs p3.Xs st.gs.headI.BoxWidth)
        ((rgeom.Tetra.Init p0.Xs p1.Xs p2.Xs p3.Xs
          st.gs.headI.BoxWidth).CellBoundsAt st.gs.headI.CellWidth) =
        0 := by
      have hps : density.pointSelect .PropToCells = density.propToCell :=
        rfl
      rw [hps]
      unfold density.propToCell
      rw [if_neg (not_le.mpr (hT ▸ hmin))]
    rw [if_pos hz]
  · intro intr mass st id dir p0 p1 p2 p3 T CB pts h0 h1 h2 h3 hT hCB
      hpts hne
    subst hT
    subst hCB
    subst hpts
    unfold density.mcStep
    dsimp only
    rw [h0, h1, h2, h3]
    dsimp only
    rw [if_neg hne]
    refine ⟨rfl, rfl, rfl, ?_⟩
    unfold rgeom.Tetra.RandomSample
    simp

/-- A particle at the box origin; four copies of it form a degenerate
tetrahedron whose every edge has length 0 < 0.251. -/
def pC7 : catalog.Particle := ⟨![0, 0, 0]⟩

/-- A particle manager holding `pC7` at every id. -/
def manC7 : catalog.ParticleManager := fun _ => some pC7

/-- A MonteCarlo interpolator with the `PropToCells` selector. -/
def mcIntrC7p : density.McarloIntr :=
  { man := manC7, countWidth := 2, steps := 4,
    gen := { f := fun _ => 0, pos := 0 }, flag := .PropToCells,
    table := tableC3 }

/-- The same interpolator with the `Flat` selector. -/
def mcIntrC7f : density.McarloIntr :=
  { mcIntrC7p with flag := .Flat }

/-- A MonteCarlo state over the scenario-C grid. -/
def stC7 : density.McState :=
  { gs := [gridC5], gen := { f := fun _ => 0, pos := 0 }, diag := 0 }

/-- The degenerate tetrahedron built from four copies of `pC7` in the
scenario-C box. -/
def TC7 : rgeom.Tetra :=
  rgeom.Tetra.Init pC7.Xs pC7.Xs pC7.Xs pC7.Xs stC7.gs.headI.BoxWidth

/-- Witness for C7: on the degenerate tetrahedron `TC7` the `Flat`
selector returns the configured 4 steps while `PropToCells` returns 0
(its minimum squared edge length 0 is below 0.251²); the `PropToCells`
step leaves the state unchanged, and the `Flat` step emits no
diagnostic and samples exactly 4 points. -/
theorem C7_witness :
    density.pointSelect .Flat 4 TC7
      (TC7.CellBoundsAt stC7.gs.headI.CellWidth) = 4 ∧
    TC7.MinMaxLegSq.1 < (251 / 1000 : ℚ) ^ 2 ∧
    density.pointSelect .PropToCells 4 TC7
      (TC7.CellBoundsAt stC7.gs.headI.CellWidth) = 0 ∧
    density.mcStep mcIntrC7p 1 stC7 0 0 = stC7 ∧
    (density.mcStep mcIntrC7f 1 stC7 0 0).diag = stC7.diag ∧
    (TC7.RandomSample stC7.gen 4).1.length = 4 := by
  have hmin : TC7.MinMaxLegSq.1 < (251 / 1000 : ℚ) ^ 2 := by
    norm_num [TC7, pC7, stC7, gridC5, density.Grid.Init,
      rgeom.Tetra.Init, rgeom.wrapVertex, rgeom.Tetra.MinMaxLegSq,
      rgeom.Tetra.legSqList, dot3, vsub]
  refine ⟨C7_mcarlo_point_selection.1 4 TC7
      (TC7.CellBoundsAt stC7.gs.headI.CellWidth),
    hmin,
    (C7_mcarlo_point_selection.2.1 4 TC7
      (TC7.CellBoundsAt stC7.gs.headI.CellWidth)).1 hmin,
    C7_mcarlo_point_selection.2.2.1 mcIntrC7p 1 stC7 0 0 pC7 pC7 pC7 pC7
      TC7 rfl rfl rfl rfl rfl rfl hmin,
    (C7_mcarlo_point_selection.2.2.2 mcIntrC7f 1 stC7 0 0 pC7 pC7 pC7 pC7
      TC7 (TC7.CellBoundsAt stC7.gs.headI.CellWidth) 4 rfl rfl rfl rfl
      rfl rfl rfl (by decide)).2.2.1,
    (C7_mcarlo_point_selection.2.2.2 mcIntrC7f 1 stC7 0 0 pC7 pC7 pC7 pC7
      TC7 (TC7.CellBoundsAt stC7.gs.headI.CellWidth) 4 rfl rfl rfl rfl
      rfl rfl rfl (by decide)).2.2.2⟩
